import Mathlib

/-!
# Conversation context of `eric2788/chatgpt` (`context.go`)

A shallow embedding of the `ChatContext` bookkeeping and of `ChatGPT.ChatWithContext`.

Conventions of the embedding.

* A Go `string` is a Lean `String`; Go's `len` on a string is the UTF-8 byte length.
* A Go `int` is an `Int`.  The only arithmetic is `seqTimes++`, `seqTimes--` and
  `maxText - maxAnswerLen`; none of it is taken modulo `2^64`.
* A Go method with a pointer receiver becomes a function that returns the receiver's new value.
* The two role objects of a context are the fields `aiRole` and `humanRole`; a `*role` stored in a
  turn is a `RolePtr` that says which object it points to.  The turns of a `ChatContext` hold no
  nil pointer: `ChatWithContext` builds them from the context's own pointers.
* `dec.Decode(&c.old)` works in place: it sets the length of the slice, reuses the elements of
  its backing array, writes names through the role pointers it finds there and can leave a turn
  with a nil role pointer.  The history a load leaves is therefore a list of `rawConversation`,
  and `LoadConversation` returns a `Loaded`, which is a `ChatContext` again when no role pointer
  in it is nil.  The part of the backing array behind the length of `c.old`, which depends on how
  the Go runtime grew the array, is an argument of `LoadConversation`.
* `WithOldConversation` is not embedded: it drops the error of a load and can so leave a nil
  role pointer in the history of the context it configures.
* The collaborators outside the repository (the completion client, `os`, `encoding/gob`) and the
  parts of the package that live in another file (`formatAnswer`) are parameters.
-/

namespace Chatgpt

/-! ## Data model -/

/-- Go's `len` of a string: its length in bytes. -/
def len (s : String) : Int := s.utf8ByteSize

/-- Error values.  The three sentinels are package variables declared beside `ChatGPT`;
`external` is an error produced by a collaborator (completion client, `os`, `gob`). -/
inductive Error where
  | OverMaxQuestionLength
  | OverMaxSequenceTimes
  | OverMaxTextLength
  | external (msg : String)
  deriving DecidableEq, Repr

/-- The Go struct `role`. -/
structure role where
  Name : String
  deriving DecidableEq, Repr

/-- A value of type `*role`: the context's human role object, its AI role object, or a role
object allocated by the gob decoder (which no method ever writes to, so it is given by value). -/
inductive RolePtr where
  | humanRole
  | aiRole
  | decoded (r : role)
  deriving DecidableEq, Repr

/-- The Go struct `conversation`: one stored turn. -/
structure conversation where
  Role : RolePtr
  Prompt : String
  deriving DecidableEq, Repr

/-- The Go struct `ChatContext`. -/
structure ChatContext where
  background : String
  preset : String
  maxSeqTimes : Int
  aiRole : role
  humanRole : role
  old : List conversation
  restartSeq : String
  startSeq : String
  seqTimes : Int
  maintainSeqTimes : Bool
  edited : Bool
  deriving DecidableEq, Repr

/-- Dereference a role pointer in a context. -/
def ChatContext.deref (c : ChatContext) : RolePtr → role
  | .humanRole => c.humanRole
  | .aiRole => c.aiRole
  | .decoded r => r

abbrev ChatContextOption := ChatContext → ChatContext

def DefaultAiRole : String := "AI"

def DefaultHumanRole : String := "Human"

def DefaultCharacter : List String :=
  ["helpful", "creative", "clever", "friendly", "lovely", "talkative"]

/-- The format string `DefaultBackground`, applied to its one `%s` argument. -/
def DefaultBackground (a : String) : String :=
  "The following is a conversation with AI assistant. The assistant is " ++ a

/-- The format string `DefaultPreset`, applied to its two `%s` arguments. -/
def DefaultPreset (a b : String) : String :=
  "\n" ++ a ++ ": 你好，让我们开始愉快的谈话！\n" ++ b ++ ": 我是 AI assistant ，请问你有什么问题？"

def NewContext (options : List ChatContextOption) : ChatContext :=
  let ctx : ChatContext :=
    { aiRole := { Name := DefaultAiRole }
      humanRole := { Name := DefaultHumanRole }
      background := DefaultBackground (String.intercalate ", " DefaultCharacter ++ ".")
      maxSeqTimes := 10
      preset := DefaultPreset DefaultHumanRole DefaultAiRole
      old := []
      seqTimes := 0
      restartSeq := "\n" ++ DefaultHumanRole ++ ": "
      startSeq := "\n" ++ DefaultAiRole ++ ": "
      maintainSeqTimes := false
      edited := false }
  options.foldl (fun ctx option => option ctx) ctx

/-- PollConversation removes the oldest stored turn. -/
def PollConversation (c : ChatContext) : ChatContext :=
  if c.old.length = 0 then
    c
  else
    { c with old := c.old.drop 1, seqTimes := c.seqTimes - 1, edited := true }

/-- ResetConversation empties the history. -/
def ResetConversation (c : ChatContext) : ChatContext :=
  { c with old := [], seqTimes := 0, edited := true }

def IsEdited (c : ChatContext) : Bool := c.edited

def GetSeqTimes (c : ChatContext) : Int := c.seqTimes

def GetConversationsSize (c : ChatContext) : Int := c.old.length

/-! ### Persistence: `encoding/gob` and `os` -/

/-- What the gob encoder is handed for `c.old`: per turn, the role object its pointer leads to
and the text. -/
def ChatContext.gobValue (c : ChatContext) : List (role × String) :=
  c.old.map (fun v => (c.deref v.Role, v.Prompt))

/-- A `conversation` as the gob decoder can leave it: its role pointer may be nil. -/
structure rawConversation where
  Role : Option RolePtr
  Prompt : String
  deriving DecidableEq, Repr

/-- A turn seen as an element of the slice the decoder works in. -/
def conversation.toRaw (v : conversation) : rawConversation :=
  { Role := some v.Role, Prompt := v.Prompt }

/-- The turns of a raw history, when none of its role pointers is nil. -/
def checkedTurns : List rawConversation → Option (List conversation)
  | [] => some []
  | v :: rest =>
    match v.Role, checkedTurns rest with
    | some r, some turns => some ({ Role := r, Prompt := v.Prompt } :: turns)
    | _, _ => none

/-- What `dec.Decode(&c.old)` reaches from the pointer it is given: the elements of the slice,
the elements of its backing array behind its length, and the two role objects of the context,
which the turns built by `ChatWithContext` point to. -/
structure DecodeTarget where
  old : List rawConversation
  spare : List rawConversation
  humanRole : role
  aiRole : role
  deriving DecidableEq, Repr

/-- What a call of `Decode` leaves: the slice, the two role objects and the error, if any. -/
structure Decoded where
  old : List rawConversation
  humanRole : role
  aiRole : role
  err : Option Error
  deriving DecidableEq, Repr

/-- The `encoding/gob` calls of the package.  `Encode` serialises the value of `c.old`, seen
through its role pointers; `Decode` is `dec.Decode(&c.old)`, which works on what the pointer
reaches and may have changed it also when it returns an error. -/
structure Gob (Bytes : Type) where
  Encode : List (role × String) → Except Error Bytes
  Decode : Bytes → DecodeTarget → Decoded

/-- The `os` calls of the package, over a file store of type `Files`. -/
structure OS (Files Bytes : Type) where
  WriteFile : Files → String → Bytes → Files × Option Error
  ReadFile : Files → String → Except Error Bytes

/-- SaveConversation writes the history to `path`.  The deferred function registered after a
successful `Encode` runs when the function returns, whatever `os.WriteFile` returned. -/
def SaveConversation {Files Bytes : Type} (gob : Gob Bytes) (os : OS Files Bytes)
    (c : ChatContext) (fs : Files) (path : String) : ChatContext × Files × Option Error :=
  match gob.Encode c.gobValue with
  | .error err => (c, fs, some err)
  | .ok buffer =>
    let written := os.WriteFile fs path buffer
    ({ c with edited := false }, written.1, written.2)

/-- What a call of `LoadConversation` leaves: `receiver` is the context the call was made on,
and the other fields are what the call can write, as it left them: the history, the two role
objects (which the decoder writes through the role pointers), the turn counter and the error
returned. -/
structure Loaded where
  receiver : ChatContext
  old : List rawConversation
  humanRole : role
  aiRole : role
  seqTimes : Int
  err : Option Error
  deriving DecidableEq, Repr

/-- The context a load left, when its history holds no nil role pointer. -/
def Loaded.context (l : Loaded) : Option ChatContext :=
  (checkedTurns l.old).map fun old =>
    { l.receiver with
      old := old, humanRole := l.humanRole, aiRole := l.aiRole, seqTimes := l.seqTimes }

/-- LoadConversation reads the history from `path`.  `spare` is the part of the backing array
of `c.old` behind its length (empty for the `[]conversation{}` of `NewContext` and of
`ResetConversation`). -/
def LoadConversation {Files Bytes : Type} (gob : Gob Bytes) (os : OS Files Bytes)
    (c : ChatContext) (spare : List rawConversation) (fs : Files) (path : String) : Loaded :=
  match os.ReadFile fs path with
  | .error err =>
    { receiver := c, old := c.old.map conversation.toRaw, humanRole := c.humanRole
      aiRole := c.aiRole, seqTimes := c.seqTimes, err := some err }
  | .ok data =>
    let decoded := gob.Decode data
      { old := c.old.map conversation.toRaw, spare := spare, humanRole := c.humanRole
        aiRole := c.aiRole }
    match decoded.err with
    | some err =>
      { receiver := c, old := decoded.old, humanRole := decoded.humanRole
        aiRole := decoded.aiRole, seqTimes := c.seqTimes, err := some err }
    | none =>
      { receiver := c, old := decoded.old, humanRole := decoded.humanRole
        aiRole := decoded.aiRole, seqTimes := decoded.old.length, err := none }

def SetHumanRole (c : ChatContext) (role : String) : ChatContext :=
  let c := { c with humanRole := { c.humanRole with Name := role } }
  { c with restartSeq := "\n" ++ c.humanRole.Name ++ ": " }

def SetAiRole (c : ChatContext) (role : String) : ChatContext :=
  let c := { c with aiRole := { c.aiRole with Name := role } }
  { c with startSeq := "\n" ++ c.aiRole.Name ++ ": " }

def SetMaxSeqTimes (c : ChatContext) (times : Int) : ChatContext :=
  { c with maxSeqTimes := times }

def GetMaxSeqTimes (c : ChatContext) : Int := c.maxSeqTimes

def SetBackground (c : ChatContext) (background : String) : ChatContext :=
  { c with background := background }

def SetPreset (c : ChatContext) (preset : String) : ChatContext :=
  { c with preset := preset }

def WithMaxSeqTimes (times : Int) : ChatContextOption :=
  fun c => SetMaxSeqTimes c times

def WithMaintainSeqTimes (maintain : Bool) : ChatContextOption :=
  fun c => { c with maintainSeqTimes := maintain }

/-! ### The completion client -/

/-- The fields of `gogpt.CompletionRequest` that `ChatWithContext` fills in.  The four sampling
numbers are the source's literals. -/
structure CompletionRequest where
  Model : String
  MaxTokens : Int
  Prompt : String
  Temperature : ℚ
  TopP : ℚ
  N : Int
  FrequencyPenalty : ℚ
  PresencePenalty : ℚ
  User : String
  Stop : List String
  deriving DecidableEq

/-- One element of `CompletionResponse.Choices`. -/
structure CompletionChoice where
  Text : String
  deriving DecidableEq, Repr

/-- The part of `gogpt.CompletionResponse` that is read. -/
structure CompletionResponse where
  Choices : List CompletionChoice
  deriving DecidableEq, Repr

/-- What one call of `client.CreateCompletion` does with the request it is given. -/
abbrev Completion := CompletionRequest → Except Error CompletionResponse

/-- The constant `gogpt.GPT3TextDavinci003`. -/
def GPT3TextDavinci003 : String := "text-davinci-003"

/-- The fields of the Go struct `ChatGPT` that `ChatWithContext` reads (the struct is declared
beside `New`, outside `context.go`). -/
structure ChatGPT where
  userId : String
  maxQuestionLen : Int
  maxAnswerLen : Int
  maxText : Int
  ChatContext : ChatContext
  deriving DecidableEq, Repr

/-- How a call of `ChatWithContext` ends: it returns `(answer, nil)`, returns `("", err)`, or
panics on `resp.Choices[0]` with an empty `Choices`. -/
inductive Return where
  | ok (answer : String)
  | err (e : Error)
  | indexOutOfRange
  deriving DecidableEq, Repr

/-- The result of one call of `ChatWithContext`: the receiver afterwards, the request passed to
`CreateCompletion` (none when the client was not called) and how the call ended. -/
structure ChatResult where
  c : ChatGPT
  sent : Option CompletionRequest
  ret : Return

/-- The loop of `ChatWithContext` over `c.ChatContext.old`, appending one line per turn. -/
def appendTurns (c : ChatContext) (promptTable : List String) : List conversation → List String
  | [] => promptTable
  | v :: rest =>
    if v.Role = RolePtr.humanRole then
      appendTurns c (promptTable ++ ["\n" ++ (c.deref v.Role).Name ++ ": " ++ v.Prompt]) rest
    else
      appendTurns c (promptTable ++ [(c.deref v.Role).Name ++ ": " ++ v.Prompt]) rest

/-- Lines 169-181 of `ChatWithContext`: the prompt built for `question` (the question with its
period already appended) from the context as the turn-limit step left it. -/
def buildPrompt (c : ChatContext) (question : String) : String :=
  let promptTable : List String := []
  let promptTable := promptTable ++ [c.background]
  let promptTable := promptTable ++ [c.preset]
  let promptTable := appendTurns c promptTable c.old
  let promptTable := promptTable ++ ["\n" ++ c.restartSeq ++ question]
  let prompt := String.intercalate "\n" promptTable
  prompt ++ c.startSeq

/-- Lines 185-196 of `ChatWithContext`: the request built around `prompt`. -/
def buildRequest (c : ChatGPT) (prompt : String) : CompletionRequest :=
  { Model := GPT3TextDavinci003
    MaxTokens := c.maxAnswerLen
    Prompt := prompt
    Temperature := 0.9
    TopP := 1
    N := 1
    FrequencyPenalty := 0
    PresencePenalty := 0.5
    User := c.userId
    Stop := [c.ChatContext.aiRole.Name ++ ":", c.ChatContext.humanRole.Name ++ ":"] }

/-- Lines 169-211 of `ChatWithContext`: what the call does once the question-length and the
turn-limit checks are behind it. -/
def chatAfterChecks (formatAnswer : String → String) (CreateCompletion : Completion)
    (c : ChatGPT) (question : String) : ChatResult :=
  let prompt := buildPrompt c.ChatContext question
  if len prompt > c.maxText - c.maxAnswerLen then
    ⟨c, none, .err .OverMaxTextLength⟩
  else
    let req := buildRequest c prompt
    match CreateCompletion req with
    | .error err => ⟨c, some req, .err err⟩
    | .ok resp =>
      match resp.Choices with
      | [] => ⟨c, some req, .indexOutOfRange⟩
      | choice :: _ =>
        let text := formatAnswer choice.Text
        let old := c.ChatContext.old ++ [{ Role := RolePtr.humanRole, Prompt := question }]
        let old := old ++ [{ Role := RolePtr.aiRole, Prompt := text }]
        let ctx := { c.ChatContext with old := old, seqTimes := c.ChatContext.seqTimes + 1 }
        ⟨{ c with ChatContext := ctx }, some req, .ok text⟩

/-- ChatWithContext asks one question.  `formatAnswer` is the package's clean-up of the reply
text; `CreateCompletion` is what the client does on this call. -/
def ChatWithContext (formatAnswer : String → String) (CreateCompletion : Completion)
    (c : ChatGPT) (question : String) : ChatResult :=
  let question := question ++ "."
  if len question > c.maxQuestionLen then
    ⟨c, none, .err .OverMaxQuestionLength⟩
  else if c.ChatContext.seqTimes ≥ c.ChatContext.maxSeqTimes then
    if c.ChatContext.maintainSeqTimes then
      chatAfterChecks formatAnswer CreateCompletion
        { c with ChatContext := PollConversation c.ChatContext } question
    else
      ⟨c, none, .err .OverMaxSequenceTimes⟩
  else
    chatAfterChecks formatAnswer CreateCompletion c question

/-! ## Notions used in the statements -/

/-- The context as the turn-limit step of `ChatWithContext` (lines 162-168) leaves it when the
call goes on: the oldest turn is evicted when the counter has reached the ceiling. -/
def afterLimit (c : ChatContext) : ChatContext :=
  if c.seqTimes ≥ c.maxSeqTimes then PollConversation c else c

/-- The line of a stored turn in the words of the specification: the role's name, a colon and
the text, with a newline in front when the turn's role is the Human role. -/
def specLine (c : ChatContext) (t : conversation) : String :=
  if t.Role = RolePtr.humanRole then
    "\n" ++ (c.deref t.Role).Name ++ ": " ++ t.Prompt
  else
    (c.deref t.Role).Name ++ ": " ++ t.Prompt

/-- The newline-join of the background, the preset, the lines of the stored turns and one last
line, with the start sequence appended directly after it. -/
def joinedPrompt (c : ChatContext) (last : String) : String :=
  String.intercalate "\n" ([c.background, c.preset] ++ c.old.map (specLine c) ++ [last])
    ++ c.startSeq

/-- The ordered list of per-turn (role name, text) pairs of a context. -/
def turnPairs (c : ChatContext) : List (String × String) :=
  c.old.map (fun v => ((c.deref v.Role).Name, v.Prompt))

/-- The ordered list of per-turn (role name, text) pairs of what a load left (turns with a nil
role pointer have no pair). -/
def Loaded.pairs (l : Loaded) : Option (List (String × String)) :=
  l.context.map turnPairs

/-- The sequence `SaveConversation(path)`, `ResetConversation()`, `LoadConversation(path)`:
what the load left, and the error of the save.  The load works in the `[]conversation{}` that
`ResetConversation` has just made, which has no backing array to reuse. -/
def saveResetLoad {Files Bytes : Type} (gob : Gob Bytes) (os : OS Files Bytes)
    (c : ChatContext) (fs : Files) (path : String) : Loaded × Option Error :=
  let saved := SaveConversation gob os c fs path
  let reset := ResetConversation saved.1
  (LoadConversation gob os reset [] saved.2.1 path, saved.2.2)

/-- States of a context reachable from `NewContext()` by answered `ChatWithContext` calls (with
any client limits, reply clean-up and client behaviour), `PollConversation`,
`ResetConversation` and `LoadConversation` calls that return no error and leave no nil role
pointer (from any file store, codec and backing array). -/
inductive Reachable : ChatContext → Prop where
  | new : Reachable (NewContext [])
  | chat (f : String → String) (cc : Completion) (c : ChatGPT) (q a : String) :
      Reachable c.ChatContext → (ChatWithContext f cc c q).ret = .ok a →
      Reachable (ChatWithContext f cc c q).c.ChatContext
  | poll (c : ChatContext) : Reachable c → Reachable (PollConversation c)
  | reset (c : ChatContext) : Reachable c → Reachable (ResetConversation c)
  | load {Files Bytes : Type} (gob : Gob Bytes) (os : OS Files Bytes) (c : ChatContext)
      (spare : List rawConversation) (fs : Files) (path : String) (c' : ChatContext) :
      Reachable c → (LoadConversation gob os c spare fs path).err = none →
      (LoadConversation gob os c spare fs path).context = some c' →
      Reachable c'

/-- A run of answered questions: `Exchanges f c log c'` says that, starting from `c`, the
questions of `log` were asked in order, each call of `ChatWithContext` returned the answer
logged beside its question, and the client ended as `c'`. -/
inductive Exchanges (f : String → String) : ChatGPT → List (String × String) → ChatGPT → Prop
  where
  | done (c : ChatGPT) : Exchanges f c [] c
  | step (cc : Completion) (c : ChatGPT) (q a : String) (log : List (String × String))
      (c' : ChatGPT) :
      (ChatWithContext f cc c q).ret = .ok a →
      Exchanges f (ChatWithContext f cc c q).c log c' →
      Exchanges f c ((q, a) :: log) c'

/-- The turns of a run: per exchange the human turn with the question (period appended) and
the AI turn with the answer. -/
def logTurns : List (String × String) → List conversation
  | [] => []
  | (q, a) :: rest => ⟨.humanRole, q ++ "."⟩ :: ⟨.aiRole, a⟩ :: logTurns rest

/-! ## Fixtures for the concrete evaluations -/

/-- A completion client that answers every request with the one choice `t`. -/
def stubReply (t : String) : Completion :=
  fun _ => .ok { Choices := [{ Text := t }] }

/-- A completion client whose call fails. -/
def stubDown : Completion :=
  fun _ => .error (.external "service unavailable")

/-- A `ChatGPT` around the context `ctx`, with room for short questions and prompts. -/
def clientOf (ctx : ChatContext) : ChatGPT :=
  { userId := "user1", maxQuestionLen := 1024, maxAnswerLen := 1024, maxText := 4096
    ChatContext := ctx }

/-- The context of `TestMaintainContext`: ceiling 1, eviction on. -/
def maintainCtx : ChatContext :=
  NewContext [WithMaxSeqTimes 1, WithMaintainSeqTimes true]

/-- The client of `TestMaintainContext` after its first question was answered. -/
def maintainAfterOne : ChatGPT :=
  (ChatWithContext id (stubReply "I am an assistant") (clientOf maintainCtx) "A").c

/-- One element of a gob stream of `[]conversation`, as transmitted: a field that had the zero
value when it was encoded (a nil role pointer, an empty name, an empty text) is not in the
stream.  `Role = some none` is a role whose name is not transmitted. -/
structure wireTurn where
  Role : Option (Option String)
  Prompt : Option String
  deriving DecidableEq, Repr

/-- The content of a file as the gob decoder meets it.  `notGob` is content the decoder refuses
before it stores anything.  `slice elems fault` is a stream of `[]conversation`: with
`fault = none` it is sound and announces `elems.length` elements; with `fault = some k` it
announces `elems.length + k` elements and is corrupt behind the fields of `elems`. -/
inductive gobStream where
  | notGob
  | slice (elems : List wireTurn) (fault : Option Nat)
  deriving DecidableEq, Repr

/-- A turn as the encoder transmits it: fields with the zero value are left out. -/
def encodeTurn (v : role × String) : wireTurn :=
  { Role := some (if v.1.Name = "" then none else some v.1.Name)
    Prompt := if v.2 = "" then none else some v.2 }

/-- An element of a freshly made slice. -/
def zeroConversation : rawConversation :=
  { Role := none, Prompt := "" }

/-- The decoder stores one transmitted element in an element of the slice: a field that is not
in the stream is left as it is; a nil role pointer is given a new role object; a name is
written into the role object the pointer leads to, also when that is a role object of the
context.  The result is the element and the two role objects of the context. -/
def storeTurn (w : wireTurn) (v : rawConversation) (humanRole aiRole : role) :
    rawConversation × role × role :=
  let prompt := match w.Prompt with
    | some text => text
    | none => v.Prompt
  match w.Role with
  | none => ({ Role := v.Role, Prompt := prompt }, humanRole, aiRole)
  | some name =>
    match v.Role with
    | none =>
      ({ Role := some (.decoded { Name := name.getD "" }), Prompt := prompt }, humanRole, aiRole)
    | some .humanRole =>
      ({ Role := some .humanRole, Prompt := prompt },
        { Name := name.getD humanRole.Name }, aiRole)
    | some .aiRole =>
      ({ Role := some .aiRole, Prompt := prompt }, humanRole, { Name := name.getD aiRole.Name })
    | some (.decoded r) =>
      ({ Role := some (.decoded { Name := name.getD r.Name }), Prompt := prompt },
        humanRole, aiRole)

/-- The decoder stores the transmitted elements, in order, in the leading elements of the
slice; the elements behind them stay as they are. -/
def storeTurns : List wireTurn → List rawConversation → role → role →
    List rawConversation × role × role
  | [], slots, humanRole, aiRole => (slots, humanRole, aiRole)
  | _ :: _, [], humanRole, aiRole => ([], humanRole, aiRole)
  | w :: ws, v :: slots, humanRole, aiRole =>
    let stored := storeTurn w v humanRole aiRole
    let rest := storeTurns ws slots stored.2.1 stored.2.2
    (stored.1 :: rest.1, rest.2.1, rest.2.2)

/-- The codec, after `encoding/gob`.  `Decode` sets the slice to the announced length: when the
backing array is too short it makes a new slice of zero elements, and otherwise it keeps the
leading elements of the array; it then stores the transmitted elements there, and returns an
error when the stream is corrupt, what it stored by then staying. -/
def wireGob : Gob gobStream where
  Encode v := .ok (.slice (v.map encodeTurn) none)
  Decode b target :=
    match b with
    | .notGob =>
      { old := target.old, humanRole := target.humanRole, aiRole := target.aiRole
        err := some (.external "gob: not a stream of this type") }
    | .slice elems fault =>
      let n := elems.length + fault.getD 0
      let slots :=
        if target.old.length + target.spare.length < n then
          List.replicate n zeroConversation
        else
          (target.old ++ target.spare).take n
      let stored := storeTurns elems slots target.humanRole target.aiRole
      { old := stored.1, humanRole := stored.2.1, aiRole := stored.2.2
        err := fault.map fun _ => .external "gob: corrupted data" }

/-- A file store on which every write fails. -/
def fullOS : OS Unit gobStream where
  WriteFile fs _ _ := (fs, some (.external "no space left on device"))
  ReadFile _ _ := .error (.external "no such file")

/-- The client of `TestMaintainContext` after one answered question, with a question limit of
three bytes. -/
def tightClient : ChatGPT :=
  { maintainAfterOne with maxQuestionLen := 3 }

/-- The client of a fresh `NewContext()` after one answered question. -/
def freshAfterOne : ChatGPT :=
  (ChatWithContext id (stubReply "Hello") (clientOf (NewContext [])) "Hi").c

/-- An in-memory file store for any kind of content: a list of (path, content) entries, newest
first. -/
def memStore (Bytes : Type) : OS (List (String × Bytes)) Bytes where
  WriteFile fs path b := ((path, b) :: fs, none)
  ReadFile fs path :=
    match fs.lookup path with
    | some b => .ok b
    | none => .error (.external "no such file")

/-- The client of `TestMaintainContext` after one answered question, its human role then
renamed to "User". -/
def renamedClient : ChatGPT :=
  { maintainAfterOne with ChatContext := SetHumanRole maintainAfterOne.ChatContext "User" }

/-- The client of a fresh `NewContext()` after one answered question, its human role then
renamed to "User". -/
def renamedFresh : ChatGPT :=
  { freshAfterOne with ChatContext := SetHumanRole freshAfterOne.ChatContext "User" }

/-- The client of a fresh context with ceiling 2 after one answered question. -/
def ceilingTwoAfterOne : ChatGPT :=
  (ChatWithContext id (stubReply "Hello") (clientOf (NewContext [WithMaxSeqTimes 2])) "Hi").c

/-- The stream `SaveConversation` writes for the two turns of the question "Hi" answered
"Hello". -/
def savedExchange : gobStream :=
  .slice [{ Role := some (some "Human"), Prompt := some "Hi." },
    { Role := some (some "AI"), Prompt := some "Hello" }] none

/-- A stream that announces two turns and is corrupt behind the first, a human turn "Bye.". -/
def tornExchange : gobStream :=
  .slice [{ Role := some (some "Human"), Prompt := some "Bye." }] (some 1)

/-- The sound stream of two turns saved by a context whose roles are named "User" and "Bot". -/
def renamedExchange : gobStream :=
  .slice [{ Role := some (some "User"), Prompt := some "Bye." },
    { Role := some (some "Bot"), Prompt := some "Fine" }] none

/-! ## Lemmas on the embedding -/

theorem len_append (a b : String) : len (a ++ b) = len a + len b := by
  obtain ⟨a⟩ := a
  obtain ⟨b⟩ := b
  show ((String.utf8Len (a ++ b) : ℕ) : ℤ) = (String.utf8Len a : ℕ) + (String.utf8Len b : ℕ)
  rw [String.utf8Len_append]
  push_cast
  rfl

theorem len_nonneg (a : String) : 0 ≤ len a := Int.ofNat_nonneg _

/-- The three ways `chatAfterChecks` can go once the prompt fits. -/
theorem chatAfterChecks_eq (f : String → String) (cc : Completion) (c : ChatGPT) (q : String) :
    chatAfterChecks f cc c q =
      if len (buildPrompt c.ChatContext q) > c.maxText - c.maxAnswerLen then
        ⟨c, none, .err .OverMaxTextLength⟩
      else
        match cc (buildRequest c (buildPrompt c.ChatContext q)) with
        | .error err => ⟨c, some (buildRequest c (buildPrompt c.ChatContext q)), .err err⟩
        | .ok ⟨[]⟩ => ⟨c, some (buildRequest c (buildPrompt c.ChatContext q)), .indexOutOfRange⟩
        | .ok ⟨choice :: _⟩ =>
          ⟨{ c with ChatContext :=
              { c.ChatContext with
                old := c.ChatContext.old ++ [⟨.humanRole, q⟩] ++ [⟨.aiRole, f choice.Text⟩]
                seqTimes := c.ChatContext.seqTimes + 1 } },
            some (buildRequest c (buildPrompt c.ChatContext q)), .ok (f choice.Text)⟩ := by
  unfold chatAfterChecks
  dsimp only
  split
  · rfl
  · cases cc (buildRequest c (buildPrompt c.ChatContext q)) with
    | error e => rfl
    | ok resp =>
      obtain ⟨choices⟩ := resp
      cases choices <;> rfl

/-- A call that gets past the two checks and ends in an error leaves the receiver as it was
after the checks. -/
theorem chatAfterChecks_err (f : String → String) (cc : Completion) (c : ChatGPT) (q : String)
    (e : Error) (h : (chatAfterChecks f cc c q).ret = .err e) :
    (chatAfterChecks f cc c q).c = c := by
  rw [chatAfterChecks_eq] at h ⊢
  split
  · rfl
  · rename_i h1
    rw [if_neg h1] at h
    cases hcc : cc (buildRequest c (buildPrompt c.ChatContext q)) with
    | error e => rfl
    | ok resp =>
      obtain ⟨choices⟩ := resp
      cases choices with
      | nil => rfl
      | cons ch rest => rw [hcc] at h; cases h

/-- A successful call appends the question and the answer and adds one to the counter. -/
theorem chatAfterChecks_ok (f : String → String) (cc : Completion) (c : ChatGPT) (q : String)
    (a : String) (h : (chatAfterChecks f cc c q).ret = .ok a) :
    (chatAfterChecks f cc c q).c =
      { c with ChatContext :=
        { c.ChatContext with
          old := c.ChatContext.old ++ [⟨.humanRole, q⟩] ++ [⟨.aiRole, a⟩]
          seqTimes := c.ChatContext.seqTimes + 1 } } := by
  rw [chatAfterChecks_eq] at h ⊢
  split
  · rename_i h1
    rw [if_pos h1] at h
    cases h
  · rename_i h1
    rw [if_neg h1] at h
    cases hcc : cc (buildRequest c (buildPrompt c.ChatContext q)) with
    | error e => rw [hcc] at h; cases h
    | ok resp =>
      obtain ⟨choices⟩ := resp
      cases choices with
      | nil => rw [hcc] at h; cases h
      | cons ch rest =>
        rw [hcc] at h
        cases h
        rfl

/-- A call that returns an answer passed both checks, and its receiver is the context left by
the turn-limit step with the question and the answer appended and the counter raised by one. -/
theorem ChatWithContext_ok (f : String → String) (cc : Completion) (c : ChatGPT) (q a : String)
    (h : (ChatWithContext f cc c q).ret = .ok a) :
    len (q ++ ".") ≤ c.maxQuestionLen ∧
    (c.ChatContext.seqTimes ≥ c.ChatContext.maxSeqTimes →
      c.ChatContext.maintainSeqTimes = true) ∧
    (ChatWithContext f cc c q).c =
      { c with ChatContext :=
        { afterLimit c.ChatContext with
          old := (afterLimit c.ChatContext).old ++ [⟨.humanRole, q ++ "."⟩] ++ [⟨.aiRole, a⟩]
          seqTimes := (afterLimit c.ChatContext).seqTimes + 1 } } := by
  unfold ChatWithContext at h ⊢
  dsimp only at h ⊢
  by_cases h1 : len (q ++ ".") > c.maxQuestionLen
  · rw [if_pos h1] at h
    cases h
  · rw [if_neg h1] at h ⊢
    by_cases h2 : c.ChatContext.seqTimes ≥ c.ChatContext.maxSeqTimes
    · rw [if_pos h2] at h ⊢
      by_cases h3 : c.ChatContext.maintainSeqTimes = true
      · rw [if_pos h3] at h ⊢
        rw [chatAfterChecks_ok f cc _ _ a h]
        exact ⟨not_lt.mp h1, fun _ => h3, by simp [afterLimit, h2]⟩
      · rw [if_neg h3] at h
        cases h
    · rw [if_neg h2] at h ⊢
      rw [chatAfterChecks_ok f cc _ _ a h]
      exact ⟨not_lt.mp h1, fun h' => absurd h' h2, by simp [afterLimit, h2]⟩

theorem PollConversation_seqTimes_le (c : ChatContext)
    (h : c.seqTimes ≤ (c.old.length : Int)) :
    (PollConversation c).seqTimes ≤ ((PollConversation c).old.length : Int) := by
  unfold PollConversation
  split_ifs with h0
  · exact h
  · simp only [List.length_drop]
    omega

theorem checkedTurns_length (raw : List rawConversation) (turns : List conversation)
    (h : checkedTurns raw = some turns) : turns.length = raw.length := by
  induction raw generalizing turns with
  | nil =>
    cases h
    rfl
  | cons v rest ih =>
    unfold checkedTurns at h
    cases hr : v.Role with
    | none => rw [hr] at h; cases h
    | some r =>
      cases ht : checkedTurns rest with
      | none => rw [hr, ht] at h; cases h
      | some tail =>
        rw [hr, ht] at h
        cases h
        simp [ih tail ht]

/-- A load that returns no error sets the counter to the number of turns it left. -/
theorem LoadConversation_ok_seqTimes {Files Bytes : Type} (gob : Gob Bytes)
    (os : OS Files Bytes) (c : ChatContext) (spare : List rawConversation) (fs : Files)
    (path : String) (h : (LoadConversation gob os c spare fs path).err = none) :
    (LoadConversation gob os c spare fs path).seqTimes =
      ((LoadConversation gob os c spare fs path).old.length : Int) := by
  unfold LoadConversation at h ⊢
  cases hr : os.ReadFile fs path with
  | error e => rw [hr] at h; cases h
  | ok data =>
    rw [hr] at h
    dsimp only at h ⊢
    cases hd : (gob.Decode data
        { old := c.old.map conversation.toRaw, spare := spare, humanRole := c.humanRole
          aiRole := c.aiRole }).err with
    | none => rfl
    | some e => rw [hd] at h; cases h

/-- The counter and the size of the context a load left. -/
theorem Loaded_context_fields (l : Loaded) (c' : ChatContext) (h : l.context = some c') :
    c'.seqTimes = l.seqTimes ∧ c'.old.length = l.old.length ∧
      c'.edited = l.receiver.edited := by
  unfold Loaded.context at h
  cases ht : checkedTurns l.old with
  | none => rw [ht] at h; cases h
  | some turns =>
    rw [ht] at h
    cases h
    exact ⟨rfl, checkedTurns_length _ _ ht, rfl⟩

theorem appendTurns_eq (c : ChatContext) (turns : List conversation) (table : List String) :
    appendTurns c table turns = table ++ turns.map (specLine c) := by
  induction turns generalizing table with
  | nil => simp [appendTurns]
  | cons v rest ih =>
    unfold appendTurns
    split_ifs with hv
    · rw [ih]
      simp [specLine, hv]
    · rw [ih]
      simp [specLine, hv]

theorem buildPrompt_eq (c : ChatContext) (question : String) :
    buildPrompt c question = joinedPrompt c ("\n" ++ c.restartSeq ++ question) := by
  unfold buildPrompt joinedPrompt
  dsimp only
  rw [appendTurns_eq]
  simp

/-- What a call hands to the client: nothing when a check fails, and otherwise the request
built around the prompt of the context left by the turn-limit step. -/
theorem ChatWithContext_sent (f : String → String) (cc : Completion) (c : ChatGPT)
    (q : String) :
    (ChatWithContext f cc c q).sent =
      if len (q ++ ".") > c.maxQuestionLen then none
      else if c.ChatContext.seqTimes ≥ c.ChatContext.maxSeqTimes ∧
          c.ChatContext.maintainSeqTimes = false then none
      else if len (buildPrompt (afterLimit c.ChatContext) (q ++ ".")) >
          c.maxText - c.maxAnswerLen then none
      else some (buildRequest { c with ChatContext := afterLimit c.ChatContext }
        (buildPrompt (afterLimit c.ChatContext) (q ++ "."))) := by
  have key : ∀ c' : ChatGPT, (chatAfterChecks f cc c' (q ++ ".")).sent =
      if len (buildPrompt c'.ChatContext (q ++ ".")) > c'.maxText - c'.maxAnswerLen then none
      else some (buildRequest c' (buildPrompt c'.ChatContext (q ++ "."))) := by
    intro c'
    rw [chatAfterChecks_eq]
    split_ifs with h1
    · rfl
    · cases cc (buildRequest c' (buildPrompt c'.ChatContext (q ++ "."))) with
      | error e => rfl
      | ok resp =>
        obtain ⟨choices⟩ := resp
        cases choices <;> rfl
  unfold ChatWithContext
  dsimp only
  by_cases h1 : len (q ++ ".") > c.maxQuestionLen
  · rw [if_pos h1, if_pos h1]
  · rw [if_neg h1, if_neg h1]
    by_cases h2 : c.ChatContext.seqTimes ≥ c.ChatContext.maxSeqTimes
    · rw [if_pos h2]
      by_cases h3 : c.ChatContext.maintainSeqTimes = true
      · rw [if_pos h3, if_neg (by simp [h3]), key]
        simp [afterLimit, h2]
      · rw [if_neg h3, if_pos ⟨h2, by simpa using h3⟩]
    · rw [if_neg h2, if_neg (fun h => h2 h.1), key]
      simp [afterLimit, h2]

theorem logTurns_length (log : List (String × String)) :
    (logTurns log).length = 2 * log.length := by
  induction log with
  | nil => rfl
  | cons p rest ih =>
    obtain ⟨q, a⟩ := p
    simp only [logTurns, List.length_cons, ih]
    omega

/-- Without eviction a run of answered questions appends its turns, adds its length to the
counter, stays under the ceiling and changes nothing else. -/
theorem Exchanges_no_eviction (f : String → String) (c c' : ChatGPT)
    (log : List (String × String)) (h : Exchanges f c log c')
    (hm : c.ChatContext.maintainSeqTimes = false) :
    c' = { c with ChatContext :=
            { c.ChatContext with
              old := c.ChatContext.old ++ logTurns log
              seqTimes := c.ChatContext.seqTimes + (log.length : Int) } } ∧
    c.ChatContext.seqTimes + (log.length : Int) ≤
      max c.ChatContext.seqTimes c.ChatContext.maxSeqTimes := by
  induction h with
  | done c => simp [logTurns]
  | step cc c q a log c' hok _ ih =>
    obtain ⟨_, hlim, hc⟩ := ChatWithContext_ok f cc c q a hok
    have hlt : ¬ c.ChatContext.seqTimes ≥ c.ChatContext.maxSeqTimes := by
      intro hge
      rw [hlim hge] at hm
      cases hm
    have hafter : afterLimit c.ChatContext = c.ChatContext := by
      simp [afterLimit, hlt]
    rw [hafter] at hc
    rw [hc] at ih
    obtain ⟨ih1, ih2⟩ := ih hm
    refine ⟨?_, ?_⟩
    · rw [ih1]
      simp only [logTurns, List.length_cons, List.append_assoc, List.singleton_append,
        List.cons_append, List.nil_append]
      push_cast
      congr 2
      omega
    · simp only [List.length_cons] at ih2 ⊢
      push_cast
      omega

/-- In the context of `TestMaintainContext`, after two answered questions `A` and `B` the
turn-limit step of the next call leaves exactly the turns of the second exchange. -/
theorem maintain_afterLimit (f : String → String) (cc1 cc2 : Completion) (c0 : ChatGPT)
    (A B a1 a2 : String) (hc : c0.ChatContext = maintainCtx)
    (h1 : (ChatWithContext f cc1 c0 A).ret = .ok a1)
    (h2 : (ChatWithContext f cc2 (ChatWithContext f cc1 c0 A).c B).ret = .ok a2) :
    afterLimit (ChatWithContext f cc2 (ChatWithContext f cc1 c0 A).c B).c.ChatContext =
      { maintainCtx with
        old := [⟨.humanRole, B ++ "."⟩, ⟨.aiRole, a2⟩], seqTimes := 0, edited := true } := by
  obtain ⟨_, _, e1⟩ := ChatWithContext_ok f cc1 c0 A a1 h1
  obtain ⟨_, _, e2⟩ := ChatWithContext_ok f cc2 _ B a2 h2
  rw [e2, e1, hc]
  simp [afterLimit, PollConversation, maintainCtx, NewContext, WithMaxSeqTimes,
    WithMaintainSeqTimes, SetMaxSeqTimes]

theorem human_line_eq (x : String) : "\n" ++ ("Human" ++ (": " ++ x)) = "\nHuman: " ++ x := by
  rw [← String.append_assoc, ← String.append_assoc]
  rfl

theorem ai_line_eq (x : String) : "AI" ++ (": " ++ x) = "AI: " ++ x := by
  rw [← String.append_assoc]
  rfl

theorem question_line_eq (x : String) :
    "\n" ++ ("\n" ++ ("Human" ++ (": " ++ x))) = "\n\nHuman: " ++ x := by
  rw [← String.append_assoc, ← String.append_assoc, ← String.append_assoc]
  rfl

theorem human_line_ne (A B : String) (h : A ≠ B) :
    "\nHuman: " ++ A ++ "." ≠ "\nHuman: " ++ B ++ "." := by
  intro heq
  have hd := congrArg String.data heq
  simp at hd
  exact h (String.ext hd)

theorem human_line_ne_ai_line (A x : String) : "\nHuman: " ++ A ++ "." ≠ "AI: " ++ x := by
  intro heq
  have hd := congrArg String.data heq
  simp at hd

/-- A call whose question passes the length check and the turn-limit check is the rest of
the function run on the context the turn-limit step left. -/
theorem ChatWithContext_passed (f : String → String) (cc : Completion) (c : ChatGPT)
    (q : String) (hq : len (q ++ ".") ≤ c.maxQuestionLen)
    (hlim : c.ChatContext.seqTimes < c.ChatContext.maxSeqTimes ∨
      c.ChatContext.maintainSeqTimes = true) :
    ChatWithContext f cc c q =
      chatAfterChecks f cc { c with ChatContext := afterLimit c.ChatContext } (q ++ ".") := by
  unfold ChatWithContext
  dsimp only
  rw [if_neg (not_lt.mpr hq)]
  by_cases h2 : c.ChatContext.seqTimes ≥ c.ChatContext.maxSeqTimes
  · have h3 : c.ChatContext.maintainSeqTimes = true := by
      rcases hlim with h | h
      · exact absurd h2 (not_le.mpr h)
      · exact h
    rw [if_pos h2, if_pos h3]
    simp [afterLimit, h2]
  · rw [if_neg h2]
    simp [afterLimit, h2]

/-- The two checks of `ChatWithContext`, then the rest of the function on the context the
turn-limit step left. -/
theorem ChatWithContext_eq (f : String → String) (cc : Completion) (c : ChatGPT) (q : String) :
    ChatWithContext f cc c q =
      if len (q ++ ".") > c.maxQuestionLen then ⟨c, none, .err .OverMaxQuestionLength⟩
      else if c.ChatContext.seqTimes ≥ c.ChatContext.maxSeqTimes ∧
          c.ChatContext.maintainSeqTimes = false then ⟨c, none, .err .OverMaxSequenceTimes⟩
      else chatAfterChecks f cc { c with ChatContext := afterLimit c.ChatContext } (q ++ ".") := by
  by_cases h1 : len (q ++ ".") > c.maxQuestionLen
  · rw [if_pos h1]
    unfold ChatWithContext
    dsimp only
    rw [if_pos h1]
  · rw [if_neg h1]
    by_cases h2 : c.ChatContext.seqTimes ≥ c.ChatContext.maxSeqTimes ∧
        c.ChatContext.maintainSeqTimes = false
    · rw [if_pos h2]
      unfold ChatWithContext
      dsimp only
      rw [if_neg h1, if_pos h2.1, if_neg (by simp [h2.2])]
    · rw [if_neg h2]
      apply ChatWithContext_passed f cc c q (not_lt.mp h1)
      by_cases h3 : c.ChatContext.seqTimes < c.ChatContext.maxSeqTimes
      · exact Or.inl h3
      · right
        by_contra hm
        exact h2 ⟨not_lt.mp h3, by simpa using hm⟩

/-- Past the checks, a call that does not reach the client failed on the prompt length. -/
theorem chatAfterChecks_not_sent (f : String → String) (cc : Completion) (c : ChatGPT)
    (q : String) (h : (chatAfterChecks f cc c q).sent = none) :
    (chatAfterChecks f cc c q).ret = .err .OverMaxTextLength := by
  rw [chatAfterChecks_eq] at h ⊢
  split_ifs at h ⊢ with h1
  · rfl
  · cases hcc : cc (buildRequest c (buildPrompt c.ChatContext q)) with
    | error e => rw [hcc] at h; cases h
    | ok resp =>
      obtain ⟨choices⟩ := resp
      cases choices with
      | nil => rw [hcc] at h; cases h
      | cons ch rest => rw [hcc] at h; cases h

/-- Past the checks, the only errors returned are `OverMaxTextLength` and those of the
client. -/
theorem chatAfterChecks_err_source (f : String → String) (cc : Completion) (c : ChatGPT)
    (q : String) (e : Error) (h : (chatAfterChecks f cc c q).ret = .err e) :
    e = .OverMaxTextLength ∨ ∃ req, cc req = .error e := by
  rw [chatAfterChecks_eq] at h
  split_ifs at h with h1
  · left
    cases h
    rfl
  · cases hcc : cc (buildRequest c (buildPrompt c.ChatContext q)) with
    | error e' =>
      rw [hcc] at h
      cases h
      exact Or.inr ⟨_, hcc⟩
    | ok resp =>
      obtain ⟨choices⟩ := resp
      cases choices with
      | nil => rw [hcc] at h; cases h
      | cons ch rest => rw [hcc] at h; cases h

theorem len_period : len "." = 1 := by decide

/-- With eviction on and a ceiling `K >= 1`: a client that has answered `j` questions since
`NewContext` has counter `min j K` and `j + min j K` stored turns, and a run of answered
questions keeps that shape. -/
theorem Exchanges_eviction (f : String → String) (K : ℕ) (hK : 1 ≤ K) (c c' : ChatGPT)
    (log : List (String × String)) (h : Exchanges f c log c') :
    ∀ j : ℕ, c.ChatContext.maintainSeqTimes = true → c.ChatContext.maxSeqTimes = (K : Int) →
      c.ChatContext.seqTimes = ((min j K : ℕ) : Int) →
      c.ChatContext.old.length = j + min j K →
      c'.ChatContext.seqTimes = ((min (j + log.length) K : ℕ) : Int) ∧
      c'.ChatContext.old.length = (j + log.length) + min (j + log.length) K := by
  induction h with
  | done c =>
    intro j _ _ hs hl
    exact ⟨by simpa using hs, by simpa using hl⟩
  | step cc c q a log c' hok _ ih =>
    intro j hm hmax hs hl
    obtain ⟨_, _, hc⟩ := ChatWithContext_ok f cc c q a hok
    have hstep : (ChatWithContext f cc c q).c.ChatContext.maintainSeqTimes = true ∧
        (ChatWithContext f cc c q).c.ChatContext.maxSeqTimes = (K : Int) ∧
        (ChatWithContext f cc c q).c.ChatContext.seqTimes = ((min (j + 1) K : ℕ) : Int) ∧
        (ChatWithContext f cc c q).c.ChatContext.old.length = (j + 1) + min (j + 1) K := by
      rw [hc]
      by_cases hj : j < K
      · have hlt : ¬ c.ChatContext.seqTimes ≥ c.ChatContext.maxSeqTimes := by
          rw [hs, hmax, Nat.min_eq_left (le_of_lt hj)]
          omega
        have hafter : afterLimit c.ChatContext = c.ChatContext := by
          simp [afterLimit, hlt]
        rw [hafter]
        refine ⟨hm, hmax, ?_, ?_⟩
        · show c.ChatContext.seqTimes + 1 = _
          rw [hs, Nat.min_eq_left (le_of_lt hj), Nat.min_eq_left (by omega : j + 1 ≤ K)]
          push_cast
          rfl
        · show (c.ChatContext.old ++ _ ++ _).length = _
          rw [Nat.min_eq_left (le_of_lt hj)] at hl
          rw [Nat.min_eq_left (by omega : j + 1 ≤ K)]
          simp only [List.length_append, List.length_singleton, hl]
          omega
      · have hge : c.ChatContext.seqTimes ≥ c.ChatContext.maxSeqTimes := by
          rw [hs, hmax, Nat.min_eq_right (by omega : K ≤ j)]
        have hne : ¬ c.ChatContext.old.length = 0 := by
          rw [hl, Nat.min_eq_right (by omega : K ≤ j)]
          omega
        have hafter : afterLimit c.ChatContext =
            { c.ChatContext with
              old := c.ChatContext.old.drop 1
              seqTimes := c.ChatContext.seqTimes - 1
              edited := true } := by
          simp [afterLimit, hge, PollConversation, hne]
        rw [hafter]
        refine ⟨hm, hmax, ?_, ?_⟩
        · show c.ChatContext.seqTimes - 1 + 1 = _
          rw [hs, Nat.min_eq_right (by omega : K ≤ j), Nat.min_eq_right (by omega : K ≤ j + 1)]
          omega
        · show (c.ChatContext.old.drop 1 ++ _ ++ _).length = _
          rw [Nat.min_eq_right (by omega : K ≤ j)] at hl
          rw [Nat.min_eq_right (by omega : K ≤ j + 1)]
          simp only [List.length_append, List.length_singleton, List.length_drop, hl]
          omega
    obtain ⟨hm1, hmax1, hs1, hl1⟩ := hstep
    obtain ⟨r1, r2⟩ := ih (j + 1) hm1 hmax1 hs1 hl1
    have e : j + 1 + log.length = j + (log.length + 1) := by omega
    rw [e] at r1 r2
    exact ⟨by simpa using r1, by simpa using r2⟩

/-! ## Failed calls and the history (C1) -/

set_option maxRecDepth 100000

/-- C1, as the claim states it, fails.  In the context of `TestMaintainContext` after one
answered question (ceiling 1, eviction on, counter 1, two stored turns) a call whose completion
request fails returns the client's error, and yet the oldest turn is gone and the counter has
dropped from 1 to 0. -/
theorem error_after_eviction_changes_history :
    maintainAfterOne.ChatContext.maintainSeqTimes = true ∧
    maintainAfterOne.ChatContext.seqTimes ≥ maintainAfterOne.ChatContext.maxSeqTimes ∧
    maintainAfterOne.ChatContext.old =
      [⟨.humanRole, "A."⟩, ⟨.aiRole, "I am an assistant"⟩] ∧
    GetSeqTimes maintainAfterOne.ChatContext = 1 ∧
    (ChatWithContext id stubDown maintainAfterOne "B").ret =
      .err (.external "service unavailable") ∧
    (ChatWithContext id stubDown maintainAfterOne "B").c.ChatContext.old =
      [⟨.aiRole, "I am an assistant"⟩] ∧
    GetSeqTimes (ChatWithContext id stubDown maintainAfterOne "B").c.ChatContext = 0 := by
  decide

/-- C1 (amended).  When `ChatWithContext` returns an error, the turn sequence and the turn
counter after the call are those before the call, unless the call evicted: with
`maintainSeqTimes` set, `seqTimes >= maxSeqTimes` on entry and a question that passes the length
check, they are what `PollConversation` left (the oldest turn dropped and the counter one lower
when the history was not empty), whatever error follows. -/
theorem ChatWithContext_error_history (f : String → String) (cc : Completion) (c : ChatGPT)
    (q : String) (e : Error) (h : (ChatWithContext f cc c q).ret = .err e) :
    (¬ (c.ChatContext.maintainSeqTimes = true ∧
          c.ChatContext.seqTimes ≥ c.ChatContext.maxSeqTimes ∧
          len (q ++ ".") ≤ c.maxQuestionLen) →
      (ChatWithContext f cc c q).c.ChatContext.old = c.ChatContext.old ∧
      GetSeqTimes (ChatWithContext f cc c q).c.ChatContext = GetSeqTimes c.ChatContext) ∧
    (c.ChatContext.maintainSeqTimes = true ∧
        c.ChatContext.seqTimes ≥ c.ChatContext.maxSeqTimes ∧
        len (q ++ ".") ≤ c.maxQuestionLen →
      (ChatWithContext f cc c q).c.ChatContext.old = (PollConversation c.ChatContext).old ∧
      GetSeqTimes (ChatWithContext f cc c q).c.ChatContext =
        GetSeqTimes (PollConversation c.ChatContext)) := by
  unfold ChatWithContext at h ⊢
  dsimp only at h ⊢
  split_ifs at h ⊢ with h1 h2 h3
  · exact ⟨fun _ => ⟨rfl, rfl⟩, fun hev => absurd hev.2.2 (not_le.mpr h1)⟩
  · rw [chatAfterChecks_err f cc _ _ e h]
    exact ⟨fun hne => absurd ⟨h3, h2, not_lt.mp h1⟩ hne, fun _ => ⟨rfl, rfl⟩⟩
  · exact ⟨fun _ => ⟨rfl, rfl⟩, fun hev => absurd hev.1 h3⟩
  · rw [chatAfterChecks_err f cc _ _ e h]
    exact ⟨fun _ => ⟨rfl, rfl⟩, fun hev => absurd hev.2.1 h2⟩

/-- C1 (amended), at a concrete failing call that evicts. -/
theorem ChatWithContext_error_history_witness :
    (ChatWithContext id stubDown maintainAfterOne "B").ret =
        .err (.external "service unavailable") ∧
    (ChatWithContext id stubDown maintainAfterOne "B").c.ChatContext.old =
        (PollConversation maintainAfterOne.ChatContext).old ∧
    GetSeqTimes (ChatWithContext id stubDown maintainAfterOne "B").c.ChatContext =
        GetSeqTimes (PollConversation maintainAfterOne.ChatContext) :=
  ⟨by decide,
    (ChatWithContext_error_history id stubDown maintainAfterOne "B"
      (.external "service unavailable") (by decide)).2 ⟨by decide, by decide, by decide⟩⟩

/-! ## Counter and history size (C2) -/

/-- C2, as the claim states it, fails.  One answered question on `NewContext()` gives a
reachable state whose counter is 1 while the history holds 2 turns. -/
theorem reachable_counter_ne_size :
    Reachable freshAfterOne.ChatContext ∧
    GetSeqTimes freshAfterOne.ChatContext = 1 ∧
    GetConversationsSize freshAfterOne.ChatContext = 2 :=
  ⟨Reachable.chat id (stubReply "Hello") (clientOf (NewContext [])) "Hi" "Hello"
      Reachable.new (by decide),
    by decide, by decide⟩

/-- C2 (amended).  In every state reachable from `NewContext()` by answered `ChatWithContext`
calls, `PollConversation`, `ResetConversation` and successful `LoadConversation` calls, the turn
counter is at most the length of the turn sequence: `GetSeqTimes() <= GetConversationsSize()`. -/
theorem reachable_counter_le_size (c : ChatContext) (h : Reachable c) :
    GetSeqTimes c ≤ GetConversationsSize c := by
  unfold GetSeqTimes GetConversationsSize
  induction h with
  | new => decide
  | chat f cc c q a _ hok ih =>
    obtain ⟨_, _, hc⟩ := ChatWithContext_ok f cc c q a hok
    rw [hc]
    have hlim : (afterLimit c.ChatContext).seqTimes ≤
        ((afterLimit c.ChatContext).old.length : Int) := by
      unfold afterLimit
      split_ifs
      · exact PollConversation_seqTimes_le _ ih
      · exact ih
    simp only [List.length_append, List.length_singleton]
    push_cast
    omega
  | poll c _ ih => exact PollConversation_seqTimes_le c ih
  | reset c _ _ => simp [ResetConversation]
  | load gob os c spare fs path c' _ herr hctx _ =>
    obtain ⟨hs, hl, _⟩ := Loaded_context_fields _ c' hctx
    rw [hs, hl]
    exact le_of_eq (LoadConversation_ok_seqTimes gob os c spare fs path herr)

/-- C2 (amended), at the state reached by one answered question. -/
theorem reachable_counter_le_size_witness :
    Reachable freshAfterOne.ChatContext ∧
    GetSeqTimes freshAfterOne.ChatContext ≤ GetConversationsSize freshAfterOne.ChatContext :=
  ⟨Reachable.chat id (stubReply "Hello") (clientOf (NewContext [])) "Hi" "Hello"
      Reachable.new (by decide),
    reachable_counter_le_size freshAfterOne.ChatContext
      (Reachable.chat id (stubReply "Hello") (clientOf (NewContext [])) "Hi" "Hello"
        Reachable.new (by decide))⟩

/-! ## The prompt (C3) -/

/-- C3, as the claim states it, fails.  On `NewContext()` the question "Hi" passes every check
and is answered, and the prompt handed to the client is not the join the claim describes: the
line of the new question is the restart sequence with one more newline in front. -/
theorem prompt_ne_spec_join :
    (ChatWithContext id (stubReply "Hello") (clientOf (NewContext [])) "Hi").ret = .ok "Hello" ∧
    (ChatWithContext id (stubReply "Hello") (clientOf (NewContext [])) "Hi").sent.map
        (fun req => req.Prompt) ≠
      some (joinedPrompt (NewContext []) ((NewContext []).restartSeq ++ "Hi" ++ ".")) ∧
    (ChatWithContext id (stubReply "Hello") (clientOf (NewContext [])) "Hi").sent.map
        (fun req => req.Prompt) =
      some (joinedPrompt (NewContext []) ("\n" ++ (NewContext []).restartSeq ++ "Hi" ++ ".")) := by
  decide

/-- C3 (amended).  For a question `q` that passes the length and turn-limit checks and whose
prompt fits, the prompt handed to the client is the newline-join of the lines
`[b, p, line(t1), ..., line(tn), "\n" ++ restartSeq ++ q ++ "."]` with `startSeq` appended
directly after it, where `t1..tn` are the turns left by the turn-limit step (the stored turns
without the oldest one when that step evicts) and `line(t)` is `"\n" ++ name ++ ": " ++ text`
for a turn whose role is the Human role and `name ++ ": " ++ text` otherwise. -/
theorem ChatWithContext_prompt (f : String → String) (cc : Completion) (c : ChatGPT)
    (q : String) (hq : len (q ++ ".") ≤ c.maxQuestionLen)
    (hlim : c.ChatContext.seqTimes < c.ChatContext.maxSeqTimes ∨
      c.ChatContext.maintainSeqTimes = true)
    (hfit : len (joinedPrompt (afterLimit c.ChatContext)
        ("\n" ++ c.ChatContext.restartSeq ++ q ++ ".")) ≤ c.maxText - c.maxAnswerLen) :
    (ChatWithContext f cc c q).sent.map (fun req => req.Prompt) =
      some (String.intercalate "\n"
          ([c.ChatContext.background, c.ChatContext.preset]
            ++ (afterLimit c.ChatContext).old.map (specLine c.ChatContext)
            ++ ["\n" ++ c.ChatContext.restartSeq ++ q ++ "."])
        ++ c.ChatContext.startSeq) := by
  have hfields : (afterLimit c.ChatContext).background = c.ChatContext.background ∧
      (afterLimit c.ChatContext).preset = c.ChatContext.preset ∧
      (afterLimit c.ChatContext).restartSeq = c.ChatContext.restartSeq ∧
      (afterLimit c.ChatContext).startSeq = c.ChatContext.startSeq ∧
      specLine (afterLimit c.ChatContext) = specLine c.ChatContext := by
    unfold afterLimit PollConversation
    split_ifs <;> exact ⟨rfl, rfl, rfl, rfl, rfl⟩
  obtain ⟨hb, hp, hr, hs, hl⟩ := hfields
  have hbuild : buildPrompt (afterLimit c.ChatContext) (q ++ ".") =
      joinedPrompt (afterLimit c.ChatContext) ("\n" ++ c.ChatContext.restartSeq ++ q ++ ".") := by
    rw [buildPrompt_eq, hr]
    simp [String.append_assoc]
  rw [ChatWithContext_sent, if_neg (not_lt.mpr hq), if_neg, hbuild, if_neg (not_lt.mpr hfit)]
  · simp only [Option.map_some', buildRequest, joinedPrompt, hb, hp, hs, hl]
  · rintro ⟨h2, h3⟩
    rcases hlim with h | h
    · exact absurd h2 (not_le.mpr h)
    · rw [h3] at h
      cases h

/-- C3 (amended), at the second question of `TestMaintainContext`, where the turn-limit step
evicts the first question. -/
theorem ChatWithContext_prompt_witness :
    (ChatWithContext id (stubReply "Fine") maintainAfterOne "B").sent.map
        (fun req => req.Prompt) =
      some (String.intercalate "\n"
          ([maintainAfterOne.ChatContext.background, maintainAfterOne.ChatContext.preset]
            ++ (afterLimit maintainAfterOne.ChatContext).old.map
                (specLine maintainAfterOne.ChatContext)
            ++ ["\n" ++ maintainAfterOne.ChatContext.restartSeq ++ "B" ++ "."])
        ++ maintainAfterOne.ChatContext.startSeq) :=
  ChatWithContext_prompt id (stubReply "Fine") maintainAfterOne "B" (by decide)
    (Or.inr (by decide)) (by decide)

/-! ## Save, reset, load (C4) -/

/-- C4 on the code.  A fresh context with ceiling 2 has answered one question: the counter is 1,
the history holds two turns, and a second question is answered.  `SaveConversation`,
`ResetConversation` and `LoadConversation` all succeed and restore the (role name, text)
pairs; but the counter is then 2, the number of turns, and the same second question is refused
with `OverMaxSequenceTimes`. -/
theorem save_reset_load_counter_differs :
    turnPairs ceilingTwoAfterOne.ChatContext = [("Human", "Hi."), ("AI", "Hello")] ∧
    GetSeqTimes ceilingTwoAfterOne.ChatContext = 1 ∧
    (ChatWithContext id (stubReply "Fine") ceilingTwoAfterOne "Again").ret = .ok "Fine" ∧
    (saveResetLoad wireGob (memStore gobStream) ceilingTwoAfterOne.ChatContext []
        "test.conversation").2 = none ∧
    (saveResetLoad wireGob (memStore gobStream) ceilingTwoAfterOne.ChatContext []
        "test.conversation").1.err = none ∧
    (saveResetLoad wireGob (memStore gobStream) ceilingTwoAfterOne.ChatContext []
        "test.conversation").1.pairs = some (turnPairs ceilingTwoAfterOne.ChatContext) ∧
    (saveResetLoad wireGob (memStore gobStream) ceilingTwoAfterOne.ChatContext []
        "test.conversation").1.context.map GetSeqTimes = some 2 ∧
    (saveResetLoad wireGob (memStore gobStream) ceilingTwoAfterOne.ChatContext []
        "test.conversation").1.context.map
        (fun ctx => (ChatWithContext id (stubReply "Fine") (clientOf ctx) "Again").ret) =
      some (.err .OverMaxSequenceTimes) := by
  decide

/-! ## The turn ceiling without eviction (C5, C10) -/

/-- C5.  For every `K >= 0`, starting from a fresh context with eviction disabled and
`maxSeqTimes = K`, after `K` answered questions the next call of `ChatWithContext` (with a
question within the length limit) fails with `OverMaxSequenceTimes` without calling the client,
and the history still holds exactly the `2K` turns of the `K` exchanges. -/
theorem ChatWithContext_over_ceiling (f : String → String) (K : ℕ) (c c' : ChatGPT)
    (log : List (String × String))
    (hc : c.ChatContext = NewContext [WithMaxSeqTimes K, WithMaintainSeqTimes false])
    (hrun : Exchanges f c log c') (hK : log.length = K)
    (cc : Completion) (q : String) (hq : len (q ++ ".") ≤ c.maxQuestionLen) :
    (ChatWithContext f cc c' q).ret = .err .OverMaxSequenceTimes ∧
    (ChatWithContext f cc c' q).sent = none ∧
    (ChatWithContext f cc c' q).c.ChatContext.old = logTurns log ∧
    GetConversationsSize (ChatWithContext f cc c' q).c.ChatContext = 2 * K := by
  have hm : c.ChatContext.maintainSeqTimes = false := by rw [hc]; rfl
  obtain ⟨hc', _⟩ := Exchanges_no_eviction f c c' log hrun hm
  have hold : c'.ChatContext.old = logTurns log := by rw [hc', hc]; rfl
  have hseq : c'.ChatContext.seqTimes = (K : Int) := by
    rw [hc', hc, hK]
    show (0 : Int) + (K : Int) = K
    omega
  have hmax : c'.ChatContext.maxSeqTimes = (K : Int) := by rw [hc', hc]; rfl
  have hm' : c'.ChatContext.maintainSeqTimes = false := by rw [hc', hc]; rfl
  have hq' : ¬ len (q ++ ".") > c'.maxQuestionLen := by
    rw [hc']
    exact not_lt.mpr hq
  have hres : ChatWithContext f cc c' q = ⟨c', none, .err .OverMaxSequenceTimes⟩ := by
    unfold ChatWithContext
    dsimp only
    rw [if_neg hq', if_pos (by rw [hseq, hmax]), if_neg (by simp [hm'])]
  rw [hres]
  refine ⟨rfl, rfl, hold, ?_⟩
  unfold GetConversationsSize
  rw [hold, logTurns_length, hK]
  push_cast
  rfl

/-- C5 at `K = 2`: two answered questions on a fresh context with ceiling 2, then a third
call. -/
theorem ChatWithContext_over_ceiling_witness :
    (ChatWithContext id (stubReply "Three")
        (ChatWithContext id (stubReply "Two")
          (ChatWithContext id (stubReply "One")
            (clientOf (NewContext [WithMaxSeqTimes (2 : ℕ), WithMaintainSeqTimes false]))
            "first").c "second").c "third").ret = .err .OverMaxSequenceTimes ∧
    (ChatWithContext id (stubReply "Three")
        (ChatWithContext id (stubReply "Two")
          (ChatWithContext id (stubReply "One")
            (clientOf (NewContext [WithMaxSeqTimes (2 : ℕ), WithMaintainSeqTimes false]))
            "first").c "second").c "third").c.ChatContext.old =
      [⟨.humanRole, "first."⟩, ⟨.aiRole, "One"⟩, ⟨.humanRole, "second."⟩, ⟨.aiRole, "Two"⟩] :=
  have h := ChatWithContext_over_ceiling id 2
    (clientOf (NewContext [WithMaxSeqTimes (2 : ℕ), WithMaintainSeqTimes false]))
    (ChatWithContext id (stubReply "Two")
      (ChatWithContext id (stubReply "One")
        (clientOf (NewContext [WithMaxSeqTimes (2 : ℕ), WithMaintainSeqTimes false]))
        "first").c "second").c
    [("first", "One"), ("second", "Two")] rfl
    (Exchanges.step (stubReply "One") _ "first" "One" _ _ (by decide)
      (Exchanges.step (stubReply "Two") _ "second" "Two" _ _ (by decide)
        (Exchanges.done _)))
    rfl (stubReply "Three") "third" (by decide)
  ⟨h.1, h.2.2.1⟩

/-! ## Eviction in `TestMaintainContext` (C6) -/

/-- C6.  Starting from `NewContext(WithMaxSeqTimes(1), WithMaintainSeqTimes(true))`, after
`ChatWithContext(A)` and `ChatWithContext(B)` were answered (`A` and `B` different), the prompt
a third call hands to the client is the join of the background, the preset, the turn lines
`"\nHuman: " ++ B ++ "."` and `"AI: " ++ a2` and the line of the new question: no turn line
carries the first question `A ++ "."`, and the human turn line carrying `B ++ "."` is there. -/
theorem maintain_third_prompt (f : String → String) (cc1 cc2 cc3 : Completion) (c0 : ChatGPT)
    (A B Q a1 a2 prompt : String) (hc : c0.ChatContext = maintainCtx)
    (h1 : (ChatWithContext f cc1 c0 A).ret = .ok a1)
    (h2 : (ChatWithContext f cc2 (ChatWithContext f cc1 c0 A).c B).ret = .ok a2)
    (h3 : (ChatWithContext f cc3
      (ChatWithContext f cc2 (ChatWithContext f cc1 c0 A).c B).c Q).sent.map
        (fun req => req.Prompt) = some prompt)
    (hAB : A ≠ B) :
    prompt =
      String.intercalate "\n"
          ([maintainCtx.background, maintainCtx.preset]
            ++ ["\nHuman: " ++ B ++ ".", "AI: " ++ a2]
            ++ ["\n\nHuman: " ++ Q ++ "."])
        ++ "\nAI: " ∧
    "\nHuman: " ++ A ++ "." ∉ ["\nHuman: " ++ B ++ ".", "AI: " ++ a2] ∧
    "\nHuman: " ++ B ++ "." ∈ ["\nHuman: " ++ B ++ ".", "AI: " ++ a2] := by
  have hlim := maintain_afterLimit f cc1 cc2 c0 A B a1 a2 hc h1 h2
  refine ⟨?_, ?_, List.mem_cons_self _ _⟩
  · rw [ChatWithContext_sent] at h3
    split_ifs at h3
    · simp at h3
    · simp at h3
    · simp at h3
    simp only [Option.map_some', Option.some.injEq] at h3
    subst h3
    show buildPrompt _ _ = _
    rw [hlim, buildPrompt_eq]
    simp only [joinedPrompt, List.map_cons, List.map_nil, specLine, ChatContext.deref,
      if_true, reduceCtorEq, if_false]
    simp only [maintainCtx, NewContext, WithMaxSeqTimes, WithMaintainSeqTimes, SetMaxSeqTimes,
      List.foldl_cons, List.foldl_nil, DefaultHumanRole, DefaultAiRole, String.append_assoc,
      human_line_eq, ai_line_eq, question_line_eq]
    rfl
  · intro hmem
    rcases List.mem_cons.mp hmem with h | h
    · exact human_line_ne A B hAB h
    · rcases List.mem_cons.mp h with h | h
      · exact human_line_ne_ai_line A a2 h
      · cases h

/-- C6 on the questions "A", "B" and "C", answered "One" and "Two". -/
theorem maintain_third_prompt_witness :
    (ChatWithContext id (stubReply "Three")
        (ChatWithContext id (stubReply "Two")
          (ChatWithContext id (stubReply "One") (clientOf maintainCtx) "A").c "B").c
        "C").sent.map (fun req => req.Prompt) =
      some (String.intercalate "\n"
          ([maintainCtx.background, maintainCtx.preset]
            ++ ["\nHuman: " ++ "B" ++ ".", "AI: " ++ "Two"]
            ++ ["\n\nHuman: " ++ "C" ++ "."])
        ++ "\nAI: ") ∧
    "\nHuman: " ++ "A" ++ "." ∉ ["\nHuman: " ++ "B" ++ ".", "AI: " ++ "Two"] ∧
    "\nHuman: " ++ "B" ++ "." ∈ ["\nHuman: " ++ "B" ++ ".", "AI: " ++ "Two"] :=
  ⟨by decide,
    (maintain_third_prompt id (stubReply "One") (stubReply "Two") (stubReply "Three")
      (clientOf maintainCtx) "A" "B" "C" "One" "Two"
      (String.intercalate "\n"
          ([maintainCtx.background, maintainCtx.preset]
            ++ ["\nHuman: " ++ "B" ++ ".", "AI: " ++ "Two"]
            ++ ["\n\nHuman: " ++ "C" ++ "."])
        ++ "\nAI: ")
      rfl (by decide) (by decide) (by decide) (by decide)).2⟩

/-! ## The question-length guard (C7) -/

/-- C7.  For every state of the client and every question longer than `maxQuestionLen`,
`ChatWithContext` returns `OverMaxQuestionLength`, does not call the client, and leaves the
receiver, so the history and the turn counter, unchanged. -/
theorem ChatWithContext_question_too_long (f : String → String) (cc : Completion)
    (c : ChatGPT) (q : String) (h : len q > c.maxQuestionLen) :
    (ChatWithContext f cc c q).ret = .err .OverMaxQuestionLength ∧
    (ChatWithContext f cc c q).sent = none ∧
    (ChatWithContext f cc c q).c = c ∧
    (ChatWithContext f cc c q).c.ChatContext.old = c.ChatContext.old ∧
    GetSeqTimes (ChatWithContext f cc c q).c.ChatContext = GetSeqTimes c.ChatContext := by
  have hlen : len (q ++ ".") > c.maxQuestionLen := by
    rw [len_append]
    have := len_nonneg "."
    omega
  have hres : ChatWithContext f cc c q = ⟨c, none, .err .OverMaxQuestionLength⟩ := by
    unfold ChatWithContext
    dsimp only
    rw [if_pos hlen]
  rw [hres]
  exact ⟨rfl, rfl, rfl, rfl, rfl⟩

/-- C7 at a client that is at its ceiling with eviction on: the five-byte question is refused
before anything is evicted. -/
theorem ChatWithContext_question_too_long_witness :
    len "Hello" > tightClient.maxQuestionLen ∧
    (ChatWithContext id (stubReply "Hi") tightClient "Hello").ret =
      .err .OverMaxQuestionLength ∧
    (ChatWithContext id (stubReply "Hi") tightClient "Hello").sent = none ∧
    (ChatWithContext id (stubReply "Hi") tightClient "Hello").c = tightClient ∧
    (ChatWithContext id (stubReply "Hi") tightClient "Hello").c.ChatContext.old =
      tightClient.ChatContext.old ∧
    GetSeqTimes (ChatWithContext id (stubReply "Hi") tightClient "Hello").c.ChatContext =
      GetSeqTimes tightClient.ChatContext :=
  ⟨by decide,
    ChatWithContext_question_too_long id (stubReply "Hi") tightClient "Hello" (by decide)⟩

/-! ## The dirty flag (C8, C9) -/

/-- C8 at a failing write.  The context left by an eviction is dirty; saving it to a store whose
write fails returns the write error, and `IsEdited()` is false afterwards. -/
theorem save_failure_clears_edited :
    IsEdited (PollConversation freshAfterOne.ChatContext) = true ∧
    (SaveConversation wireGob fullOS (PollConversation freshAfterOne.ChatContext) ()
        "test.conversation").2.2 = some (.external "no space left on device") ∧
    IsEdited (SaveConversation wireGob fullOS (PollConversation freshAfterOne.ChatContext) ()
        "test.conversation").1 = false := by
  decide

/-- C9 at an answered question and at a successful load.  `NewContext()` is clean; after an
answered question its history holds two turns and `IsEdited()` is still false; and loading a
saved two-turn history into a clean `NewContext()` succeeds, replaces the history and leaves
`IsEdited()` false. -/
theorem append_and_load_leave_edited_false :
    IsEdited (NewContext []) = false ∧
    (ChatWithContext id (stubReply "Hello") (clientOf (NewContext [])) "Hi").ret = .ok "Hello" ∧
    GetConversationsSize freshAfterOne.ChatContext = 2 ∧
    IsEdited freshAfterOne.ChatContext = false ∧
    (LoadConversation wireGob (memStore gobStream) (NewContext []) []
        [("test.conversation", savedExchange)] "test.conversation").err = none ∧
    (LoadConversation wireGob (memStore gobStream) (NewContext []) []
        [("test.conversation", savedExchange)] "test.conversation").context.map
        GetConversationsSize = some 2 ∧
    (LoadConversation wireGob (memStore gobStream) (NewContext []) []
        [("test.conversation", savedExchange)] "test.conversation").context.map
        IsEdited = some false := by
  decide

/-! ## Counter and size after `N` exchanges (C10) -/

/-- C10, as the claim states it, fails at `N = 1`.  One answered question on a fresh context
(ceiling 10, no eviction) leaves `GetSeqTimes()` at 1, not 2, while the history holds 2
turns. -/
theorem one_exchange_counter_is_one :
    (ChatWithContext id (stubReply "Hello")
        (clientOf (NewContext [WithMaxSeqTimes 10, WithMaintainSeqTimes false])) "Hi").ret =
      .ok "Hello" ∧
    GetSeqTimes (ChatWithContext id (stubReply "Hello")
        (clientOf (NewContext [WithMaxSeqTimes 10, WithMaintainSeqTimes false]))
        "Hi").c.ChatContext = 1 ∧
    GetSeqTimes (ChatWithContext id (stubReply "Hello")
        (clientOf (NewContext [WithMaxSeqTimes 10, WithMaintainSeqTimes false]))
        "Hi").c.ChatContext ≠ 2 * 1 ∧
    GetConversationsSize (ChatWithContext id (stubReply "Hello")
        (clientOf (NewContext [WithMaxSeqTimes 10, WithMaintainSeqTimes false]))
        "Hi").c.ChatContext = 2 * 1 := by
  decide

/-- C10 (amended).  After `N` answered questions on a fresh context with no eviction,
`GetSeqTimes()` equals `N` and `GetConversationsSize()` equals `2N`; such a run exists only for
`N` up to the ceiling `maxSeqTimes` (or `N = 0`). -/
theorem exchanges_counter_and_size (f : String → String) (M : Int) (N : ℕ) (c c' : ChatGPT)
    (log : List (String × String))
    (hc : c.ChatContext = NewContext [WithMaxSeqTimes M, WithMaintainSeqTimes false])
    (hrun : Exchanges f c log c') (hN : log.length = N) :
    GetSeqTimes c'.ChatContext = N ∧
    GetConversationsSize c'.ChatContext = 2 * N ∧
    (N : Int) ≤ max 0 M := by
  have hm : c.ChatContext.maintainSeqTimes = false := by rw [hc]; rfl
  obtain ⟨hc', hle⟩ := Exchanges_no_eviction f c c' log hrun hm
  rw [hc, hN] at hle
  refine ⟨?_, ?_, ?_⟩
  · unfold GetSeqTimes
    rw [hc', hc, hN]
    show (0 : Int) + (N : Int) = N
    omega
  · unfold GetConversationsSize
    rw [hc', hc]
    show (((([] : List conversation) ++ logTurns log).length : ℕ) : Int) = 2 * N
    rw [List.nil_append, logTurns_length, hN]
    push_cast
    rfl
  · have h0 : (NewContext [WithMaxSeqTimes M, WithMaintainSeqTimes false]).seqTimes = 0 := rfl
    have hM : (NewContext [WithMaxSeqTimes M, WithMaintainSeqTimes false]).maxSeqTimes = M :=
      rfl
    rw [h0, hM] at hle
    omega

/-- C10 (amended) at `N = 2`: two answered questions on a fresh context with ceiling 10. -/
theorem exchanges_counter_and_size_witness :
    GetSeqTimes (ChatWithContext id (stubReply "Two")
        (ChatWithContext id (stubReply "One")
          (clientOf (NewContext [WithMaxSeqTimes 10, WithMaintainSeqTimes false]))
          "first").c "second").c.ChatContext = (2 : ℕ) ∧
    GetConversationsSize (ChatWithContext id (stubReply "Two")
        (ChatWithContext id (stubReply "One")
          (clientOf (NewContext [WithMaxSeqTimes 10, WithMaintainSeqTimes false]))
          "first").c "second").c.ChatContext = 2 * (2 : ℕ) ∧
    ((2 : ℕ) : Int) ≤ max 0 10 :=
  exchanges_counter_and_size id 10 2
    (clientOf (NewContext [WithMaxSeqTimes 10, WithMaintainSeqTimes false]))
    (ChatWithContext id (stubReply "Two")
      (ChatWithContext id (stubReply "One")
        (clientOf (NewContext [WithMaxSeqTimes 10, WithMaintainSeqTimes false]))
        "first").c "second").c
    [("first", "One"), ("second", "Two")] rfl
    (Exchanges.step (stubReply "One") _ "first" "One" _ _ (by decide)
      (Exchanges.step (stubReply "Two") _ "second" "Two" _ _ (by decide)
        (Exchanges.done _)))
    rfl

/-! ## Eviction of the oldest turn (C11) -/

/-- C11.  `PollConversation` on a history `h :: rest` leaves exactly `rest`, lowers the turn
counter by one and sets the dirty flag, every other field staying as it was; on an empty
history it changes nothing at all. -/
theorem PollConversation_spec (c : ChatContext) :
    (∀ (h : conversation) (rest : List conversation), c.old = h :: rest →
      PollConversation c =
        { c with old := rest, seqTimes := c.seqTimes - 1, edited := true }) ∧
    (c.old = [] → PollConversation c = c) := by
  constructor
  · intro h rest hold
    unfold PollConversation
    rw [if_neg (by rw [hold]; simp), hold]
    rfl
  · intro hold
    unfold PollConversation
    rw [if_pos (by rw [hold]; rfl)]

/-- C11 on the two-turn history of one answered question and on the empty history of
`NewContext()`. -/
theorem PollConversation_spec_witness :
    PollConversation freshAfterOne.ChatContext =
      { freshAfterOne.ChatContext with
        old := [⟨.aiRole, "Hello"⟩]
        seqTimes := freshAfterOne.ChatContext.seqTimes - 1
        edited := true } ∧
    PollConversation (NewContext []) = NewContext [] :=
  ⟨(PollConversation_spec freshAfterOne.ChatContext).1 ⟨.humanRole, "Hi."⟩
      [⟨.aiRole, "Hello"⟩] (by decide),
    (PollConversation_spec (NewContext [])).2 (by decide)⟩

/-! ## The prompt-length guard (C12) -/

/-- C12.  For every client and question that pass the question-length and turn-limit checks,
`ChatWithContext` fails with `OverMaxTextLength` without calling the client exactly when the
length of the rendered prompt (start sequence included) is greater than
`maxText - maxAnswerLen`; otherwise the client is called with that prompt and
`MaxTokens = maxAnswerLen`. -/
theorem ChatWithContext_text_guard (f : String → String) (cc : Completion) (c : ChatGPT)
    (q : String) (hq : len (q ++ ".") ≤ c.maxQuestionLen)
    (hlim : c.ChatContext.seqTimes < c.ChatContext.maxSeqTimes ∨
      c.ChatContext.maintainSeqTimes = true) :
    (((ChatWithContext f cc c q).ret = .err .OverMaxTextLength ∧
        (ChatWithContext f cc c q).sent = none) ↔
      len (buildPrompt (afterLimit c.ChatContext) (q ++ ".")) > c.maxText - c.maxAnswerLen) ∧
    (¬ len (buildPrompt (afterLimit c.ChatContext) (q ++ ".")) > c.maxText - c.maxAnswerLen →
      ∃ req, (ChatWithContext f cc c q).sent = some req ∧
        req.Prompt = buildPrompt (afterLimit c.ChatContext) (q ++ ".") ∧
        req.MaxTokens = c.maxAnswerLen) := by
  have hsent := ChatWithContext_sent f cc c q
  rw [if_neg (not_lt.mpr hq), if_neg] at hsent
  swap
  · rintro ⟨h2, h3⟩
    rcases hlim with h | h
    · exact absurd h2 (not_le.mpr h)
    · rw [h3] at h
      cases h
  by_cases hfit : len (buildPrompt (afterLimit c.ChatContext) (q ++ ".")) >
      c.maxText - c.maxAnswerLen
  · rw [if_pos hfit] at hsent
    refine ⟨⟨fun _ => hfit, fun _ => ⟨?_, hsent⟩⟩, fun h => absurd hfit h⟩
    rw [ChatWithContext_passed f cc c q hq hlim, chatAfterChecks_eq, if_pos hfit]
  · rw [if_neg hfit] at hsent
    refine ⟨⟨fun h => ?_, fun h => absurd h hfit⟩, fun _ => ⟨_, hsent, rfl, rfl⟩⟩
    rw [hsent] at h
    cases h.2

/-- C12 on the second question of `TestMaintainContext`, whose prompt fits. -/
theorem ChatWithContext_text_guard_witness :
    ∃ req, (ChatWithContext id (stubReply "Fine") maintainAfterOne "B").sent = some req ∧
      req.Prompt = buildPrompt (afterLimit maintainAfterOne.ChatContext) ("B" ++ ".") ∧
      req.MaxTokens = maintainAfterOne.maxAnswerLen :=
  (ChatWithContext_text_guard id (stubReply "Fine") maintainAfterOne "B" (by decide)
    (Or.inr (by decide))).2 (by decide)

/-! ## Loading (C13) -/

/-- C13 on the code.  The file announces two turns and is corrupt behind the first, a human
turn "Bye.".  Loaded into the two-turn history of an answered question, `LoadConversation`
returns the decoder's error with the counter as before, but the first stored turn now reads
"Bye.": the decoder worked in `c.old` itself.  Loaded into the empty history of `NewContext()`,
it returns the error and leaves two turns, the decoded one and a zero turn whose role pointer
is nil.  And a sound file saved under the role names "User" and "Bot", loaded into the two-turn
history, succeeds with the counter equal to the length, keeps the role pointers of the prior
turns and writes the names through them into the context's role objects, the restart sequence
staying that of "Human". -/
theorem load_failure_changes_history :
    freshAfterOne.ChatContext.old = [⟨.humanRole, "Hi."⟩, ⟨.aiRole, "Hello"⟩] ∧
    (LoadConversation wireGob (memStore gobStream) freshAfterOne.ChatContext []
        [("test.conversation", tornExchange)] "test.conversation").err =
      some (.external "gob: corrupted data") ∧
    (LoadConversation wireGob (memStore gobStream) freshAfterOne.ChatContext []
        [("test.conversation", tornExchange)] "test.conversation").old =
      [⟨some .humanRole, "Bye."⟩, ⟨some .aiRole, "Hello"⟩] ∧
    (LoadConversation wireGob (memStore gobStream) freshAfterOne.ChatContext []
        [("test.conversation", tornExchange)] "test.conversation").seqTimes =
      GetSeqTimes freshAfterOne.ChatContext ∧
    (LoadConversation wireGob (memStore gobStream) (NewContext []) []
        [("test.conversation", tornExchange)] "test.conversation").err =
      some (.external "gob: corrupted data") ∧
    (LoadConversation wireGob (memStore gobStream) (NewContext []) []
        [("test.conversation", tornExchange)] "test.conversation").old =
      [⟨some (.decoded ⟨"Human"⟩), "Bye."⟩, ⟨none, ""⟩] ∧
    (LoadConversation wireGob (memStore gobStream) freshAfterOne.ChatContext []
        [("test.conversation", renamedExchange)] "test.conversation").err = none ∧
    (LoadConversation wireGob (memStore gobStream) freshAfterOne.ChatContext []
        [("test.conversation", renamedExchange)] "test.conversation").old =
      [⟨some .humanRole, "Bye."⟩, ⟨some .aiRole, "Fine"⟩] ∧
    (LoadConversation wireGob (memStore gobStream) freshAfterOne.ChatContext []
        [("test.conversation", renamedExchange)] "test.conversation").seqTimes = 2 ∧
    (LoadConversation wireGob (memStore gobStream) freshAfterOne.ChatContext []
        [("test.conversation", renamedExchange)] "test.conversation").humanRole = ⟨"User"⟩ ∧
    (LoadConversation wireGob (memStore gobStream) freshAfterOne.ChatContext []
        [("test.conversation", renamedExchange)] "test.conversation").aiRole = ⟨"Bot"⟩ ∧
    (LoadConversation wireGob (memStore gobStream) freshAfterOne.ChatContext []
        [("test.conversation", renamedExchange)] "test.conversation").context.map
        (fun ctx => ctx.restartSeq) = some "\nHuman: " := by
  decide

/-! ## Renaming the human role (C14) -/

/-- C14, as the claim states it, fails.  In the context of `TestMaintainContext` the history
holds the human turn "A." of the first question; after `SetHumanRole("User")` the next call
evicts that turn before rendering, so the prompt it hands to the client has no line
`"\nUser: A."`: its lines are the background, the preset, the first answer and the new
question. -/
theorem renamed_turn_evicted_from_prompt :
    (⟨.humanRole, "A."⟩ : conversation) ∈ renamedClient.ChatContext.old ∧
    (ChatWithContext id (stubReply "Fine") renamedClient "B").sent.map (fun req => req.Prompt) =
      some (String.intercalate "\n"
          [renamedClient.ChatContext.background, renamedClient.ChatContext.preset,
            "AI: I am an assistant", "\n\nUser: B."]
        ++ "\nAI: ") ∧
    "\nUser: A." ∉
      [renamedClient.ChatContext.background, renamedClient.ChatContext.preset,
        "AI: I am an assistant", "\n\nUser: B."] := by
  decide

/-- C14 (amended).  After `SetHumanRole(n)`, for a question that passes the checks and whose
prompt fits, the prompt handed to the client is the join of the background, the preset, the
lines of the turns the turn-limit step leaves (all stored turns unless it evicts the oldest)
and the line `"\n" ++ ("\n" ++ n ++ ": ") ++ q ++ "."` of the new question, with the start
sequence appended; in it every turn whose role is the Human role has the line
`"\n" ++ n ++ ": " ++ text`, the restart sequence is `"\n" ++ n ++ ": "`, and the stop
sequences are the AI name and `n`, each followed by a colon. -/
theorem SetHumanRole_prompt (f : String → String) (cc : Completion) (c : ChatGPT)
    (n q : String) (hq : len (q ++ ".") ≤ c.maxQuestionLen)
    (hlim : c.ChatContext.seqTimes < c.ChatContext.maxSeqTimes ∨
      c.ChatContext.maintainSeqTimes = true)
    (hfit : len (buildPrompt (afterLimit (SetHumanRole c.ChatContext n)) (q ++ ".")) ≤
      c.maxText - c.maxAnswerLen) :
    (∃ req,
      (ChatWithContext f cc { c with ChatContext := SetHumanRole c.ChatContext n } q).sent =
        some req ∧
      req.Prompt =
        String.intercalate "\n"
            ([c.ChatContext.background, c.ChatContext.preset]
              ++ (afterLimit c.ChatContext).old.map (specLine (SetHumanRole c.ChatContext n))
              ++ ["\n" ++ ("\n" ++ n ++ ": ") ++ q ++ "."])
          ++ c.ChatContext.startSeq ∧
      req.Stop = [c.ChatContext.aiRole.Name ++ ":", n ++ ":"]) ∧
    (∀ t : conversation, t.Role = RolePtr.humanRole →
      specLine (SetHumanRole c.ChatContext n) t = "\n" ++ n ++ ": " ++ t.Prompt) ∧
    (SetHumanRole c.ChatContext n).restartSeq = "\n" ++ n ++ ": " ∧
    (c.ChatContext.seqTimes < c.ChatContext.maxSeqTimes →
      (afterLimit c.ChatContext).old = c.ChatContext.old) := by
  have hold : (afterLimit (SetHumanRole c.ChatContext n)).old = (afterLimit c.ChatContext).old := by
    unfold afterLimit PollConversation SetHumanRole
    dsimp only
    split_ifs <;> rfl
  have hfields : (afterLimit (SetHumanRole c.ChatContext n)).background = c.ChatContext.background ∧
      (afterLimit (SetHumanRole c.ChatContext n)).preset = c.ChatContext.preset ∧
      (afterLimit (SetHumanRole c.ChatContext n)).restartSeq = "\n" ++ n ++ ": " ∧
      (afterLimit (SetHumanRole c.ChatContext n)).startSeq = c.ChatContext.startSeq ∧
      (afterLimit (SetHumanRole c.ChatContext n)).aiRole = c.ChatContext.aiRole ∧
      (afterLimit (SetHumanRole c.ChatContext n)).humanRole.Name = n ∧
      specLine (afterLimit (SetHumanRole c.ChatContext n)) =
        specLine (SetHumanRole c.ChatContext n) := by
    unfold afterLimit PollConversation SetHumanRole
    dsimp only
    split_ifs <;> exact ⟨rfl, rfl, rfl, rfl, rfl, rfl, rfl⟩
  obtain ⟨hb, hp, hr, hs, ha, hh, hl⟩ := hfields
  refine ⟨?_, ?_, rfl, ?_⟩
  · have hsent := ChatWithContext_sent f cc
      { c with ChatContext := SetHumanRole c.ChatContext n } q
    rw [if_neg (not_lt.mpr hq), if_neg, if_neg (not_lt.mpr hfit)] at hsent
    · refine ⟨_, hsent, ?_, ?_⟩
      · show buildPrompt _ _ = _
        rw [buildPrompt_eq]
        unfold joinedPrompt
        rw [hb, hp, hr, hs, hl, hold]
        simp [String.append_assoc]
      · show [_ ++ ":", _ ++ ":"] = _
        rw [ha, hh]
    · rintro ⟨h2, h3⟩
      rcases hlim with h | h
      · exact absurd h2 (not_le.mpr h)
      · have h3' : c.ChatContext.maintainSeqTimes = false := h3
        rw [h3'] at h
        cases h
  · intro t ht
    simp [specLine, ht, ChatContext.deref, SetHumanRole]
  · intro hlt
    simp [afterLimit, not_le.mpr hlt]

/-- C14 (amended) on a fresh context after one answered question "Hi", renamed to "User": no
eviction, and the earlier human turn is shown as `"\nUser: Hi."`. -/
theorem SetHumanRole_prompt_witness :
    (∃ req,
      (ChatWithContext id (stubReply "Fine") renamedFresh "B").sent = some req ∧
      req.Prompt =
        String.intercalate "\n"
            ([freshAfterOne.ChatContext.background, freshAfterOne.ChatContext.preset]
              ++ (afterLimit freshAfterOne.ChatContext).old.map
                  (specLine (SetHumanRole freshAfterOne.ChatContext "User"))
              ++ ["\n" ++ ("\n" ++ "User" ++ ": ") ++ "B" ++ "."])
          ++ freshAfterOne.ChatContext.startSeq ∧
      req.Stop = [freshAfterOne.ChatContext.aiRole.Name ++ ":", "User" ++ ":"]) ∧
    (afterLimit freshAfterOne.ChatContext).old.map
        (specLine (SetHumanRole freshAfterOne.ChatContext "User")) =
      ["\nUser: Hi.", "AI: Hello"] :=
  ⟨(SetHumanRole_prompt id (stubReply "Fine") freshAfterOne "User" "B" (by decide)
      (Or.inl (by decide)) (by decide)).1,
    by decide⟩

/-! ## The period and the question-length guard (C15) -/

/-- C15.  The question-length guard is applied to the question with its period appended: for
every question `q`, `ChatWithContext` fails with `OverMaxQuestionLength` before calling the
client if and only if `len q + 1 > maxQuestionLen`, and, the client's own errors being other
values, it returns `OverMaxQuestionLength` if and only if `len q + 1 > maxQuestionLen`; so a
question of exactly `maxQuestionLen` bytes is rejected.  On an answered call the human turn
stored in the history has the text `q ++ "."`. -/
theorem ChatWithContext_question_guard (f : String → String) (cc : Completion) (c : ChatGPT)
    (q : String) :
    (((ChatWithContext f cc c q).ret = .err .OverMaxQuestionLength ∧
        (ChatWithContext f cc c q).sent = none) ↔ len q + 1 > c.maxQuestionLen) ∧
    ((∀ req, cc req ≠ .error .OverMaxQuestionLength) →
      ((ChatWithContext f cc c q).ret = .err .OverMaxQuestionLength ↔
        len q + 1 > c.maxQuestionLen)) ∧
    (len q = c.maxQuestionLen →
      (ChatWithContext f cc c q).ret = .err .OverMaxQuestionLength) ∧
    (∀ a, (ChatWithContext f cc c q).ret = .ok a →
      (ChatWithContext f cc c q).c.ChatContext.old =
        (afterLimit c.ChatContext).old ++ [⟨.humanRole, q ++ "."⟩, ⟨.aiRole, a⟩]) := by
  have hlen : len (q ++ ".") = len q + 1 := by rw [len_append, len_period]
  have hpos : len q + 1 > c.maxQuestionLen →
      (ChatWithContext f cc c q).ret = .err .OverMaxQuestionLength ∧
        (ChatWithContext f cc c q).sent = none := by
    intro h
    rw [ChatWithContext_eq, if_pos (by rw [hlen]; exact h)]
    exact ⟨rfl, rfl⟩
  have hneg : ¬ len q + 1 > c.maxQuestionLen →
      (ChatWithContext f cc c q).ret = .err .OverMaxQuestionLength →
      ∃ req, cc req = .error .OverMaxQuestionLength := by
    intro h hret
    rw [ChatWithContext_eq, if_neg (by rw [hlen]; exact h)] at hret
    by_cases h2 : c.ChatContext.seqTimes ≥ c.ChatContext.maxSeqTimes ∧
        c.ChatContext.maintainSeqTimes = false
    · rw [if_pos h2] at hret
      cases hret
    · rw [if_neg h2] at hret
      rcases chatAfterChecks_err_source f cc _ _ _ hret with he | he
      · cases he
      · exact he
  refine ⟨⟨fun h => ?_, hpos⟩, fun hcc => ⟨fun h => ?_, fun h => (hpos h).1⟩, fun h => ?_,
    fun a h => ?_⟩
  · by_contra hle
    obtain ⟨hret, hsent⟩ := h
    rw [ChatWithContext_eq, if_neg (by rw [hlen]; exact hle)] at hret hsent
    by_cases h2 : c.ChatContext.seqTimes ≥ c.ChatContext.maxSeqTimes ∧
        c.ChatContext.maintainSeqTimes = false
    · rw [if_pos h2] at hret
      cases hret
    · rw [if_neg h2] at hret hsent
      rw [chatAfterChecks_not_sent f cc _ _ hsent] at hret
      cases hret
  · by_contra hle
    obtain ⟨req, hreq⟩ := hneg hle h
    exact hcc req hreq
  · exact (hpos (by omega)).1
  · obtain ⟨_, _, hc⟩ := ChatWithContext_ok f cc c q a h
    rw [hc]
    simp

/-- C15 at a question of exactly `maxQuestionLen` bytes, which is rejected, and at an answered
question, whose stored human turn ends with the period. -/
theorem ChatWithContext_question_guard_witness :
    len "abc" = tightClient.maxQuestionLen ∧
    (ChatWithContext id (stubReply "Hi") tightClient "abc").ret =
      .err .OverMaxQuestionLength ∧
    (ChatWithContext id (stubReply "Hello") (clientOf (NewContext [])) "Hi").ret = .ok "Hello" ∧
    (ChatWithContext id (stubReply "Hello") (clientOf (NewContext [])) "Hi").c.ChatContext.old =
      (afterLimit (clientOf (NewContext [])).ChatContext).old
        ++ [⟨.humanRole, "Hi" ++ "."⟩, ⟨.aiRole, "Hello"⟩] :=
  ⟨by decide,
    (ChatWithContext_question_guard id (stubReply "Hi") tightClient "abc").2.2.1 (by decide),
    by decide,
    (ChatWithContext_question_guard id (stubReply "Hello") (clientOf (NewContext []))
      "Hi").2.2.2 "Hello" (by decide)⟩

/-! ## The counter under eviction (C16, C17) -/

/-- C16.  With eviction on the ceiling does not bound the stored history: for every `K >= 1`
and `n >= K`, starting from a fresh context with `maxSeqTimes = K` and
`maintainSeqTimes = true`, after `n` answered questions `GetSeqTimes() == K` and
`GetConversationsSize() == n + K`. -/
theorem eviction_history_grows (f : String → String) (K n : ℕ) (hK : 1 ≤ K) (hn : K ≤ n)
    (c c' : ChatGPT) (log : List (String × String))
    (hc : c.ChatContext = NewContext [WithMaxSeqTimes K, WithMaintainSeqTimes true])
    (hrun : Exchanges f c log c') (hlen : log.length = n) :
    GetSeqTimes c'.ChatContext = K ∧ GetConversationsSize c'.ChatContext = n + K := by
  have h := Exchanges_eviction f K hK c c' log hrun 0 (by rw [hc]; rfl) (by rw [hc]; rfl)
    (by rw [hc, Nat.zero_min]; rfl) (by rw [hc, Nat.zero_min]; rfl)
  rw [hlen, Nat.zero_add, Nat.min_eq_right hn] at h
  unfold GetSeqTimes GetConversationsSize
  rw [h.1, h.2]
  exact ⟨rfl, by push_cast; rfl⟩

/-- C16 at `K = 1`, `n = 2`: the two answered questions of `TestMaintainContext`. -/
theorem eviction_history_grows_witness :
    GetSeqTimes (ChatWithContext id (stubReply "Two")
        (ChatWithContext id (stubReply "One") (clientOf maintainCtx) "A").c
        "B").c.ChatContext = (1 : ℕ) ∧
    GetConversationsSize (ChatWithContext id (stubReply "Two")
        (ChatWithContext id (stubReply "One") (clientOf maintainCtx) "A").c
        "B").c.ChatContext = (2 : ℕ) + (1 : ℕ) :=
  eviction_history_grows id 1 2 (by decide) (by decide) (clientOf maintainCtx)
    (ChatWithContext id (stubReply "Two")
      (ChatWithContext id (stubReply "One") (clientOf maintainCtx) "A").c "B").c
    [("A", "One"), ("B", "Two")] rfl
    (Exchanges.step (stubReply "One") _ "A" "One" _ _ (by decide)
      (Exchanges.step (stubReply "Two") _ "B" "Two" _ _ (by decide)
        (Exchanges.done _)))
    rfl

/-- C17.  The turn counter can go below zero: after one answered question on `NewContext()`
and two calls of `PollConversation` the state is reachable, the history is empty and
`GetSeqTimes()` is `-1`; the turn-limit check of the next call then compares `-1` with
`maxSeqTimes = 10`, and the call goes through without evicting. -/
theorem counter_negative_after_polls :
    Reachable (PollConversation (PollConversation freshAfterOne.ChatContext)) ∧
    (PollConversation (PollConversation freshAfterOne.ChatContext)).old = [] ∧
    GetSeqTimes (PollConversation (PollConversation freshAfterOne.ChatContext)) = -1 ∧
    GetMaxSeqTimes (PollConversation (PollConversation freshAfterOne.ChatContext)) = 10 ∧
    (ChatWithContext id (stubReply "Fine")
        (clientOf (PollConversation (PollConversation freshAfterOne.ChatContext)))
        "Again").ret = .ok "Fine" ∧
    GetSeqTimes (ChatWithContext id (stubReply "Fine")
        (clientOf (PollConversation (PollConversation freshAfterOne.ChatContext)))
        "Again").c.ChatContext = 0 ∧
    GetConversationsSize (ChatWithContext id (stubReply "Fine")
        (clientOf (PollConversation (PollConversation freshAfterOne.ChatContext)))
        "Again").c.ChatContext = 2 :=
  ⟨Reachable.poll _ (Reachable.poll _
      (Reachable.chat id (stubReply "Hello") (clientOf (NewContext [])) "Hi" "Hello"
        Reachable.new (by decide))),
    by decide, by decide, by decide, by decide, by decide, by decide⟩

end Chatgpt
